import Mathlib

set_option maxHeartbeats 1000000
set_option maxRecDepth 100000

/-!
# Verification of the ChatGPT Word Copier document-synthesis core

This file gives a shallow embedding, in Lean 4, of the document-synthesis
pipeline of the `chatgpt-word-copier` browser extension:

* the XML escaping primitive (`src/lib/mathml-to-omml.js`, `escapeXml`),
* the MathML → OMML converter (`mathmlToOmml`, `convertNode` and friends),
* the hand-written LaTeX → OMML parser (`latexToOmmlDirect`),
* the DOCX assembler (`buildDocx` and its helpers in `src/lib/pdf-generator.js`).

JavaScript strings are modelled as Lean `String`s (a JS string is a sequence
of UTF-16 code units; for the code points that occur in this code base the
two representations coincide).  The browser's `DOMParser` is external to the
repository, so the outcome of XML parsing is modelled abstractly: a parse
either fails (`none`) or yields a MathML DOM tree (`some` of an `MNode`).
Mutable accumulation (`result += …`) becomes explicit recursion, and the
mutable cursor of the LaTeX parser becomes an explicit position threaded
through fuelled recursion; fuel adequacy is proved below, which is the
formal counterpart of termination of the JavaScript `while` loop.
-/

namespace WordCopier

/-- One step of a JavaScript global single-character regex replace
(`str.replace(/c/g, r)`) on the underlying character list: every occurrence
of the character `c` is replaced by the string `r`. -/
def replaceCharL (c : Char) (r : List Char) : List Char → List Char
  | [] => []
  | x :: xs => (if x = c then r else [x]) ++ replaceCharL c r xs

/-- JavaScript `str.replace(/c/g, r)` for a single-character pattern `c`. -/
def replaceAllChar (s : String) (c : Char) (r : String) : String :=
  ⟨replaceCharL c r.data s.data⟩

/-- The apostrophe character (U+0027). -/
def aposChar : Char := Char.ofNat 39

/-- `escapeXml` from `src/lib/mathml-to-omml.js` (lines 666–673): five
sequential global replaces, the ampersand first. -/
def escapeXml (s : String) : String :=
  replaceAllChar
    (replaceAllChar
      (replaceAllChar
        (replaceAllChar
          (replaceAllChar s
            '&' "&amp;")
          '<' "&lt;")
        '>' "&gt;")
      '"' "&quot;")
    aposChar "&apos;"

/-- The JavaScript `escapeXml` applied to a nullable argument.  The source
has no null guard: `str.replace` on `null`/`undefined` raises a
`TypeError`, which is modelled as `Except.error`. -/
def escapeXmlNullable : Option String → Except String String
  | none => Except.error "TypeError: Cannot read properties of null (reading replace)"
  | some s => Except.ok (escapeXml s)

/-- `makeRun` from `src/lib/mathml-to-omml.js` (lines 207–215): an OMML math
run.  Every call site in the converter uses the default
`italic = false`, `bold = false`. -/
def makeRun (text : String) (italic : Bool := false) (bold : Bool := false) : String :=
  let rPr :=
    if italic || bold then
      "<m:rPr>" ++ (if italic then "<m:sty m:val=\"p\"/>" else "") ++ "</m:rPr>"
    else ""
  "<m:r>" ++ rPr ++
    "<w:rPr><w:rFonts w:ascii=\"Cambria Math\" w:hAnsi=\"Cambria Math\"/></w:rPr><m:t>" ++
    escapeXml text ++ "</m:t></m:r>"

/-- A MathML DOM node as produced by the browser's `DOMParser`: an element
with a tag, attributes and child nodes, a text node, or another node kind
(comment, processing instruction) which the converter ignores. -/
inductive MNode where
  | element (tag : String) (attrs : List (String × String)) (children : List MNode)
  | text (s : String)
  | comment (s : String)
deriving Repr

mutual

/-- `Node.textContent`: the concatenated text of all descendant text
nodes. -/
def textContent : MNode → String
  | .text s => s
  | .comment _ => ""
  | .element _ _ children => textContentList children

/-- `textContent` over a list of child nodes. -/
def textContentList : List MNode → String
  | [] => ""
  | n :: ns => textContent n ++ textContentList ns

end

/-- The regex replace `/^[^:]+:/ → ''`: strip a leading namespace
qualifier — one or more non-colon characters followed by a colon. -/
def stripNsQualifier (s : String) : String :=
  let pre := s.data.takeWhile (fun c => c ≠ ':')
  if pre.length ≠ 0 ∧ pre.length < s.data.length then
    ⟨s.data.drop (pre.length + 1)⟩
  else s

/-- JavaScript `String.prototype.trim`: drop leading and trailing
whitespace (the tags and accent glyphs handled here are unaffected by the
slight difference between the JS and Lean whitespace sets). -/
def trimStr (s : String) : String :=
  ⟨((s.data.dropWhile Char.isWhitespace).reverse.dropWhile Char.isWhitespace).reverse⟩

/-- `localName(node)` from `src/lib/mathml-to-omml.js` (lines 188–190):
lower-case the tag (tags are ASCII) and strip any namespace qualifier. -/
def localName (tag : String) : String :=
  stripNsQualifier ⟨tag.data.map Char.toLower⟩

/-- Whether a node is an element node (`nodeType === Node.ELEMENT_NODE`). -/
def isElementNode : MNode → Bool
  | .element _ _ _ => true
  | _ => false

/-- The tag of a node, lower-cased and unqualified (`""` for non-elements). -/
def nodeLocalName : MNode → String
  | .element tag _ _ => localName tag
  | _ => ""

/-- `ACCENT_MAP` from `src/lib/mathml-to-omml.js` (lines 29–47). -/
def ACCENT_MAP : List (String × String) :=
  [("̂", "̂"), ("̃", "̃"), ("̄", "̄"),
   ("̇", "̇"), ("̈", "̈"), ("⃗", "⃗"),
   ("^", "̂"), ("~", "̃"), ("¯", "̄"), ("→", "⃗"),
   ("˙", "̇"), ("¨", "̈"), ("ˆ", "̂"), ("˜", "̃"),
   ("‾", "̄"), ("⏞", "⏞"), ("⏟", "⏟")]

/-- `KNOWN_ACCENTS` from `src/lib/mathml-to-omml.js` (lines 50–55). -/
def KNOWN_ACCENTS : List String :=
  ["̂", "̃", "̄", "̅", "̆", "̇", "̈",
   "̌", "̑", "⃗", "⃖", "⃑", "⃡",
   "¯", "̄", "^", "~", "→", "⃗", "̂", "˙", "¨", "ˆ", "˜", "‾",
   "⏞", "⏟"]

/-- `narySymbols` from `convertUnderOver` (line 349). -/
def narySymbols : List (String × String) :=
  [("∑", "∑"), ("∏", "∏"), ("∫", "∫"), ("∮", "∮"),
   ("⋃", "⋃"), ("⋂", "⋂"), ("∬", "∬"), ("∭", "∭")]

/-- The `<m:ctrlPr>…</m:ctrlPr>` literal repeated in every OMML template of
the converter (each template in the source contains this exact text). -/
def ctrlPr : String :=
  "<m:ctrlPr><w:rPr><w:rFonts w:ascii=\"Cambria Math\" w:hAnsi=\"Cambria Math\"/></w:rPr></m:ctrlPr>"

/-- `getChildElements(node)` (lines 200–202) paired with the already
computed conversion of each child: the element children of a node, each
with its `convertNode` result. -/
def elemKids (children : List MNode) (kids : List String) : List (MNode × String) :=
  (children.zip kids).filter (fun p => isElementNode p.1)

/-- `children[i] ? convertNode(children[i]) : makeRun('')` over the paired
element-children list. -/
def nthElemOmml (ep : List (MNode × String)) (i : Nat) : String :=
  match ep[i]? with
  | some p => p.2
  | none => makeRun ""

/-- `node.getAttribute(name)` (`none` models a `null` return). -/
def getAttr (n : MNode) (name : String) : Option String :=
  match n with
  | .element _ attrs _ => attrs.lookup name
  | _ => none

/-- `convertToken` (lines 220–230); both the `mo` branch and the fall
through return `makeRun(text)`. -/
def convertToken (children : List MNode) : String :=
  let text := textContentList children
  if trimStr text = "" then "" else makeRun text

/-- `convertFraction` (lines 235–249). -/
def convertFraction (attrs : List (String × String)) (ep : List (MNode × String)) : String :=
  let num := nthElemOmml ep 0
  let den := nthElemOmml ep 1
  let fPr :=
    if attrs.lookup "linethickness" = some "0" then
      "<m:fPr><m:type m:val=\"noBar\"/>" ++ ctrlPr ++ "</m:fPr>"
    else
      "<m:fPr>" ++ ctrlPr ++ "</m:fPr>"
  "<m:f>" ++ fPr ++ "<m:num>" ++ num ++ "</m:num><m:den>" ++ den ++ "</m:den></m:f>"

/-- `convertSuperscript` (lines 254–260). -/
def convertSuperscript (ep : List (MNode × String)) : String :=
  "<m:sSup><m:sSupPr>" ++ ctrlPr ++ "</m:sSupPr><m:e>" ++ nthElemOmml ep 0 ++
    "</m:e><m:sup>" ++ nthElemOmml ep 1 ++ "</m:sup></m:sSup>"

/-- `convertSubscript` (lines 265–271). -/
def convertSubscript (ep : List (MNode × String)) : String :=
  "<m:sSub><m:sSubPr>" ++ ctrlPr ++ "</m:sSubPr><m:e>" ++ nthElemOmml ep 0 ++
    "</m:e><m:sub>" ++ nthElemOmml ep 1 ++ "</m:sub></m:sSub>"

/-- `convertSubSuperscript` (lines 276–283). -/
def convertSubSuperscript (ep : List (MNode × String)) : String :=
  "<m:sSubSup><m:sSubSupPr>" ++ ctrlPr ++ "</m:sSubSupPr><m:e>" ++ nthElemOmml ep 0 ++
    "</m:e><m:sub>" ++ nthElemOmml ep 1 ++ "</m:sub><m:sup>" ++ nthElemOmml ep 2 ++
    "</m:sup></m:sSubSup>"

/-- `convertSqrt` (lines 288–291). -/
def convertSqrt (kids : List String) : String :=
  "<m:rad><m:radPr><m:degHide m:val=\"1\"/>" ++ ctrlPr ++ "</m:radPr><m:deg/><m:e>" ++
    String.join kids ++ "</m:e></m:rad>"

/-- `convertRoot` (lines 296–302). -/
def convertRoot (ep : List (MNode × String)) : String :=
  "<m:rad><m:radPr>" ++ ctrlPr ++ "</m:radPr><m:deg>" ++ nthElemOmml ep 1 ++
    "</m:deg><m:e>" ++ nthElemOmml ep 0 ++ "</m:e></m:rad>"

/-- `convertOver` (lines 307–324): accent construct when the `accent`
attribute is `"true"` or the trimmed over-script text is a known accent,
upper-limit construct otherwise.  (`ACCENT_MAP[overText] || overText`: all
map values are non-empty, so the JS falsy fallback fires exactly when the
key is absent.) -/
def convertOver (attrs : List (String × String)) (children : List MNode)
    (kids : List String) : String :=
  let ep := elemKids children kids
  let base := nthElemOmml ep 0
  let overEl := ep[1]?
  let overText := match overEl with
    | some p => trimStr (textContent p.1)
    | none => ""
  let accent := attrs.lookup "accent" == some "true" || KNOWN_ACCENTS.contains overText
  if accent then
    let chr := (ACCENT_MAP.lookup overText).getD overText
    "<m:acc><m:accPr><m:chr m:val=\"" ++ escapeXml chr ++ "\"/>" ++ ctrlPr ++
      "</m:accPr><m:e>" ++ base ++ "</m:e></m:acc>"
  else
    let over := match overEl with
      | some p => p.2
      | none => makeRun ""
    "<m:limUpp><m:limUppPr>" ++ ctrlPr ++ "</m:limUppPr><m:e>" ++ base ++
      "</m:e><m:lim>" ++ over ++ "</m:lim></m:limUpp>"

/-- `convertUnder` (lines 329–335). -/
def convertUnder (ep : List (MNode × String)) : String :=
  "<m:limLow><m:limLowPr>" ++ ctrlPr ++ "</m:limLowPr><m:e>" ++ nthElemOmml ep 0 ++
    "</m:e><m:lim>" ++ nthElemOmml ep 1 ++ "</m:lim></m:limLow>"

/-- `convertUnderOver` (lines 340–363): n-ary construct for the known big
operators, otherwise nested limit constructs. -/
def convertUnderOver (ep : List (MNode × String)) : String :=
  let base := ep[0]?
  let under := ep[1]?
  let over := ep[2]?
  let baseText := match base with
    | some p => trimStr (textContent p.1)
    | none => ""
  match narySymbols.lookup baseText with
  | some sym =>
    let subOmml := match under with | some p => p.2 | none => makeRun ""
    let supOmml := match over with | some p => p.2 | none => makeRun ""
    "<m:nary><m:naryPr><m:chr m:val=\"" ++ escapeXml sym ++
      "\"/><m:limLoc m:val=\"undOvr\"/>" ++ ctrlPr ++ "</m:naryPr><m:sub>" ++ subOmml ++
      "</m:sub><m:sup>" ++ supOmml ++ "</m:sup><m:e></m:e></m:nary>"
  | none =>
    let baseOmml := match base with | some p => p.2 | none => makeRun ""
    let underOmml := match under with | some p => p.2 | none => makeRun ""
    let overOmml := match over with | some p => p.2 | none => makeRun ""
    let inner := "<m:limUpp><m:limUppPr>" ++ ctrlPr ++ "</m:limUppPr><m:e>" ++ baseOmml ++
      "</m:e><m:lim>" ++ overOmml ++ "</m:lim></m:limUpp>"
    "<m:limLow><m:limLowPr>" ++ ctrlPr ++ "</m:limLowPr><m:e>" ++ inner ++
      "</m:e><m:lim>" ++ underOmml ++ "</m:lim></m:limLow>"

/-- `getMaxCols` (lines 388–400). -/
def getMaxCols (children : List MNode) : Nat :=
  let m := children.foldl
    (fun acc c =>
      match c with
      | .element _ _ gc =>
        max acc ((gc.filter (fun td => isElementNode td && nodeLocalName td == "mtd")).length)
      | _ => acc)
    0
  if m = 0 then 1 else m

/-- `convertTableRow` (lines 378–386): `convertChildren(mtdChild)` is the
paired conversion of the `mtd` child (`convertNode` on an `mtd` element is
`convertChildren`). -/
def convertTableRow (children : List MNode) (kids : List String) : String :=
  let cells := (children.zip kids).filter
    (fun p => isElementNode p.1 && nodeLocalName p.1 == "mtd")
  "<m:mr>" ++ String.join (cells.map (fun p => "<m:e>" ++ p.2 ++ "</m:e>")) ++ "</m:mr>"

/-- `convertTable` (lines 368–376): rows are the conversions of `mtr` /
`mlabeledtr` children (`convertNode` on those tags is `convertTableRow`). -/
def convertTable (children : List MNode) (kids : List String) : String :=
  let rows := (children.zip kids).filter
    (fun p => isElementNode p.1 &&
      (nodeLocalName p.1 == "mtr" || nodeLocalName p.1 == "mlabeledtr"))
  "<m:m><m:mPr><m:mcs><m:mc><m:mcPr><m:count m:val=\"" ++ toString (getMaxCols children) ++
    "\"/><m:mcJc m:val=\"center\"/></m:mcPr></m:mc></m:mcs>" ++ ctrlPr ++ "</m:mPr>" ++
    String.join (rows.map (fun p => p.2)) ++ "</m:m>"

/-- `convertFenced` (lines 405–411); absent or empty `open`/`close`
attributes fall back to parentheses (JS `|| '('`). -/
def convertFenced (attrs : List (String × String)) (kids : List String) : String :=
  let op := match attrs.lookup "open" with
    | some v => if v = "" then "(" else v
    | none => "("
  let cl := match attrs.lookup "close" with
    | some v => if v = "" then ")" else v
    | none => ")"
  "<m:d><m:dPr><m:begChr m:val=\"" ++ escapeXml op ++ "\"/><m:endChr m:val=\"" ++
    escapeXml cl ++ "\"/>" ++ ctrlPr ++ "</m:dPr><m:e>" ++ String.join kids ++ "</m:e></m:d>"

/-- `convertEnclose` (lines 416–419). -/
def convertEnclose (kids : List String) : String :=
  "<m:borderBox><m:borderBoxPr>" ++ ctrlPr ++ "</m:borderBoxPr><m:e>" ++
    String.join kids ++ "</m:e></m:borderBox>"

/-- The `switch` of `convertNode` (lines 103–186) on an element node, given
the conversions `kids` of all child nodes (`convertChildren(node)` is
`String.join kids`). -/
def convertElement (tag : String) (attrs : List (String × String))
    (children : List MNode) (kids : List String) : String :=
  match tag with
  | "math" | "mrow" | "semantics" | "mstyle" | "mpadded" | "mphantom" => String.join kids
  | "annotation" | "annotation-xml" => ""
  | "mi" | "mn" | "mo" | "ms" | "mtext" => convertToken children
  | "mfrac" => convertFraction attrs (elemKids children kids)
  | "msup" => convertSuperscript (elemKids children kids)
  | "msub" => convertSubscript (elemKids children kids)
  | "msubsup" => convertSubSuperscript (elemKids children kids)
  | "msqrt" => convertSqrt kids
  | "mroot" => convertRoot (elemKids children kids)
  | "mover" => convertOver attrs children kids
  | "munder" => convertUnder (elemKids children kids)
  | "munderover" => convertUnderOver (elemKids children kids)
  | "mtable" => convertTable children kids
  | "mtr" | "mlabeledtr" => convertTableRow children kids
  | "mtd" => String.join kids
  | "mfenced" => convertFenced attrs kids
  | "menclose" => convertEnclose kids
  | "mspace" => ""
  | "mmultiscripts" => String.join kids
  | _ => String.join kids

mutual

/-- `convertNode` (lines 103–186): text nodes become trimmed runs, element
nodes dispatch on the local tag name, everything else is dropped. -/
def convertNode : MNode → String
  | .text s =>
    let t := trimStr s
    if t = "" then "" else makeRun t
  | .comment _ => ""
  | .element tag attrs children =>
    convertElement (localName tag) attrs children (convertList children)

/-- The conversions of a list of child nodes, in order. -/
def convertList : List MNode → List String
  | [] => []
  | n :: ns => convertNode n :: convertList ns

end

/-- `mathmlToOmml` (lines 60–86).  The browser `DOMParser` is external;
`parsed` is its outcome: `none` when parsing fails (the `parsererror`
document) or no `math`/root element is found, otherwise the root element.
The fallback branch returns the escaped input as a plain text run. -/
def mathmlToOmml (parsed : Option MNode) (mathmlString : String) : String :=
  match parsed with
  | none =>
    "<m:oMath><m:r><m:t>" ++ escapeXml mathmlString ++ "</m:t></m:r></m:oMath>"
  | some mathEl =>
    let isDisplay := getAttr mathEl "display" == some "block"
    let innerOmml := convertNode mathEl
    if isDisplay then
      "<m:oMathPara><m:oMath>" ++ innerOmml ++ "</m:oMath></m:oMathPara>"
    else
      "<m:oMath>" ++ innerOmml ++ "</m:oMath>"

/-- The trimmed text content of the over-script element child of a `mover`
element (the `overText` local of `convertOver`, line 311). -/
def moverOverText (children : List MNode) : String :=
  match (elemKids children (convertList children))[1]? with
  | some p => trimStr (textContent p.1)
  | none => ""

/-- The converted over-script of a `mover` element (the `over` local of
`convertOver`'s upper-limit branch, line 321). -/
def moverOverOmml (children : List MNode) : String :=
  match (elemKids children (convertList children))[1]? with
  | some p => p.2
  | none => makeRun ""

/-- `/[a-zA-Z]/` from `readCommand` (line 516). -/
def isLatexLetter (c : Char) : Bool :=
  ('a' ≤ c && c ≤ 'z') || ('A' ≤ c && c ≤ 'Z')

/-- `readCommand` (lines 513–521): skip the backslash, then take letters.
Returns the command name and the new cursor position. -/
def readCommand (cs : List Char) (pos : Nat) : String × Nat :=
  let cmd := (cs.drop (pos + 1)).takeWhile isLatexLetter
  (⟨cmd⟩, pos + 1 + cmd.length)

/-- The plain-symbol arms of the `handleCommand` switch (lines 534–609),
in source order: each command maps to the glyph of its `makeRun` call. -/
def latexCommandSymbols : List (String × String) :=
  [("sum", "∑"), ("prod", "∏"), ("int", "∫"), ("infty", "∞"),
   ("alpha", "α"), ("beta", "β"), ("gamma", "γ"), ("delta", "δ"),
   ("epsilon", "ε"), ("zeta", "ζ"), ("eta", "η"), ("theta", "θ"),
   ("iota", "ι"), ("kappa", "κ"), ("lambda", "λ"), ("mu", "μ"),
   ("nu", "ν"), ("xi", "ξ"), ("pi", "π"), ("rho", "ρ"),
   ("sigma", "σ"), ("tau", "τ"), ("upsilon", "υ"), ("phi", "φ"),
   ("chi", "χ"), ("psi", "ψ"), ("omega", "ω"),
   ("Gamma", "Γ"), ("Delta", "Δ"), ("Theta", "Θ"), ("Lambda", "Λ"),
   ("Xi", "Ξ"), ("Pi", "Π"), ("Sigma", "Σ"), ("Phi", "Φ"),
   ("Psi", "Ψ"), ("Omega", "Ω"),
   ("cdot", "⋅"), ("cdots", "⋯"), ("ldots", "…"), ("dots", "…"),
   ("times", "×"), ("div", "÷"), ("pm", "±"), ("mp", "∓"),
   ("leq", "≤"), ("le", "≤"), ("geq", "≥"), ("ge", "≥"),
   ("neq", "≠"), ("ne", "≠"), ("approx", "≈"), ("equiv", "≡"),
   ("sim", "∼"), ("propto", "∝"), ("in", "∈"), ("notin", "∉"),
   ("subset", "⊂"), ("supset", "⊃"), ("subseteq", "⊆"), ("supseteq", "⊇"),
   ("cup", "∪"), ("cap", "∩"), ("forall", "∀"), ("exists", "∃"),
   ("nabla", "∇"), ("partial", "∂"),
   ("to", "→"), ("rightarrow", "→"), ("leftarrow", "←"),
   ("Rightarrow", "⇒"), ("Leftarrow", "⇐"),
   ("leftrightarrow", "↔"), ("Leftrightarrow", "⇔"),
   ("langle", "⟨"), ("rangle", "⟩"), ("lfloor", "⌊"), ("rfloor", "⌋"),
   ("lceil", "⌈"), ("rceil", "⌉")]

mutual

/-- The `parse` loop of `latexToOmmlDirect` (lines 437–492).  The mutable
cursor `pos` and accumulator `result` are threaded explicitly; `fuel`
bounds the recursion depth and `none` means the fuel ran out (adequate fuel
is proved below). -/
def parseF (cs : List Char) : Nat → Nat → String → Option (String × Nat)
  | 0, _, _ => none
  | fuel + 1, pos, acc =>
    match cs[pos]? with
    | none => some (acc, pos)
    | some ch =>
      if ch = '}' then some (acc, pos)
      else if ch = '{' then
        match parseF cs fuel (pos + 1) "" with
        | none => none
        | some (inner, pos₁) =>
          let pos₂ := match cs[pos₁]? with
            | some c => if c = '}' then pos₁ + 1 else pos₁
            | none => pos₁
          parseF cs fuel pos₂ (acc ++ inner)
      else if ch = '^' then
        match parseGroupF cs fuel (pos + 1) with
        | none => none
        | some (sup, pos₁) =>
          let baseOmml := if acc = "" then makeRun "" else acc
          match parseF cs fuel pos₁ "" with
          | none => none
          | some (rest, pos₂) =>
            some ("<m:sSup><m:sSupPr>" ++ ctrlPr ++ "</m:sSupPr><m:e>" ++ baseOmml ++
              "</m:e><m:sup>" ++ sup ++ "</m:sup></m:sSup>" ++ rest, pos₂)
      else if ch = '_' then
        match parseGroupF cs fuel (pos + 1) with
        | none => none
        | some (sub, pos₁) =>
          let baseOmml := if acc = "" then makeRun "" else acc
          if cs[pos₁]? == some '^' then
            match parseGroupF cs fuel (pos₁ + 1) with
            | none => none
            | some (sup, pos₂) =>
              match parseF cs fuel pos₂ "" with
              | none => none
              | some (rest, pos₃) =>
                some ("<m:sSubSup><m:sSubSupPr>" ++ ctrlPr ++ "</m:sSubSupPr><m:e>" ++
                  baseOmml ++ "</m:e><m:sub>" ++ sub ++ "</m:sub><m:sup>" ++ sup ++
                  "</m:sup></m:sSubSup>" ++ rest, pos₃)
          else
            match parseF cs fuel pos₁ "" with
            | none => none
            | some (rest, pos₂) =>
              some ("<m:sSub><m:sSubPr>" ++ ctrlPr ++ "</m:sSubPr><m:e>" ++ baseOmml ++
                "</m:e><m:sub>" ++ sub ++ "</m:sub></m:sSub>" ++ rest, pos₂)
      else if ch = '\\' then
        match readCommand cs pos with
        | (cmd, pos₁) =>
          match handleCommandF cs fuel cmd pos₁ with
          | none => none
          | some (piece, pos₂) => parseF cs fuel pos₂ (acc ++ piece)
      else if ch = ' ' then parseF cs fuel (pos + 1) acc
      else parseF cs fuel (pos + 1) (acc ++ makeRun (String.singleton ch))

/-- `parseGroup` (lines 494–511). -/
def parseGroupF (cs : List Char) : Nat → Nat → Option (String × Nat)
  | 0, _ => none
  | fuel + 1, pos =>
    match cs[pos]? with
    | some '{' =>
      match parseF cs fuel (pos + 1) "" with
      | none => none
      | some (r, pos₁) =>
        let pos₂ := match cs[pos₁]? with
          | some c => if c = '}' then pos₁ + 1 else pos₁
          | none => pos₁
        some (r, pos₂)
    | some '\\' =>
      match readCommand cs pos with
      | (cmd, pos₁) => handleCommandF cs fuel cmd pos₁
    | some ch => some (makeRun (String.singleton ch), pos + 1)
    | none => some ("", pos)

/-- `handleCommand` (lines 523–658): the LaTeX command table.  The sixty
plain-symbol arms of the source `switch` (each one `return makeRun('…')`)
are tabulated in `latexCommandSymbols`; the commands with their own logic
keep their own match arms.  The table is disjoint from the special
commands, so the dispatch order is the same as in the source. -/
def handleCommandF (cs : List Char) : Nat → String → Nat → Option (String × Nat)
  | 0, _, _ => none
  | fuel + 1, cmd, pos =>
    match latexCommandSymbols.lookup cmd with
    | some sym => some (makeRun sym, pos)
    | none =>
    match cmd with
    | "frac" =>
      match parseGroupF cs fuel pos with
      | none => none
      | some (num, pos₁) =>
        match parseGroupF cs fuel pos₁ with
        | none => none
        | some (den, pos₂) =>
          some ("<m:f><m:fPr>" ++ ctrlPr ++ "</m:fPr><m:num>" ++ num ++ "</m:num><m:den>" ++
            den ++ "</m:den></m:f>", pos₂)
    | "sqrt" =>
      match parseGroupF cs fuel pos with
      | none => none
      | some (content, pos₁) =>
        some ("<m:rad><m:radPr><m:degHide m:val=\"1\"/>" ++ ctrlPr ++
          "</m:radPr><m:deg/><m:e>" ++ content ++ "</m:e></m:rad>", pos₁)
    | "left" | "right" =>
      match cs[pos]? with
      | some d => some (makeRun (if d = '\\' then "" else String.singleton d), pos + 1)
      | none => some ("", pos)
    | "text" | "mathrm" | "textrm" => parseGroupF cs fuel pos
    | "mathbf" | "textbf" | "bf" => parseGroupF cs fuel pos
    | "bar" | "overline" =>
      match parseGroupF cs fuel pos with
      | none => none
      | some (content, pos₁) =>
        some ("<m:acc><m:accPr><m:chr m:val=\"̄\"/>" ++ ctrlPr ++ "</m:accPr><m:e>" ++
          content ++ "</m:e></m:acc>", pos₁)
    | "hat" =>
      match parseGroupF cs fuel pos with
      | none => none
      | some (content, pos₁) =>
        some ("<m:acc><m:accPr><m:chr m:val=\"̂\"/>" ++ ctrlPr ++ "</m:accPr><m:e>" ++
          content ++ "</m:e></m:acc>", pos₁)
    | "vec" =>
      match parseGroupF cs fuel pos with
      | none => none
      | some (content, pos₁) =>
        some ("<m:acc><m:accPr><m:chr m:val=\"⃗\"/>" ++ ctrlPr ++ "</m:accPr><m:e>" ++
          content ++ "</m:e></m:acc>", pos₁)
    | "dot" =>
      match parseGroupF cs fuel pos with
      | none => none
      | some (content, pos₁) =>
        some ("<m:acc><m:accPr><m:chr m:val=\"̇\"/>" ++ ctrlPr ++ "</m:accPr><m:e>" ++
          content ++ "</m:e></m:acc>", pos₁)
    | "tilde" =>
      match parseGroupF cs fuel pos with
      | none => none
      | some (content, pos₁) =>
        some ("<m:acc><m:accPr><m:chr m:val=\"̃\"/>" ++ ctrlPr ++ "</m:accPr><m:e>" ++
          content ++ "</m:e></m:acc>", pos₁)
    | _ => some (makeRun ("\\" ++ cmd), pos)

end

/-- `latexToOmmlDirect` (lines 432–661): run the parser from position `0`
with empty accumulator.  The fuel `3 * length + 1` is proved adequate
below, so the `none` default is never taken. -/
def latexToOmmlDirect (latex : String) : String :=
  let cs := latex.data
  match parseF cs (3 * cs.length + 1) 0 "" with
  | some (r, _) => r
  | none => ""

/-- `latexToOmml` (lines 92–98). -/
def latexToOmml (latex : String) (display : Bool := false) : String :=
  let ommlContent := latexToOmmlDirect latex
  if display then
    "<m:oMathPara><m:oMath>" ++ ommlContent ++ "</m:oMath></m:oMathPara>"
  else
    "<m:oMath>" ++ ommlContent ++ "</m:oMath>"

/-!
## The DOCX assembler (`buildDocx` and helpers, `src/lib/pdf-generator.js`)

Line numbers below refer to `src/lib/pdf-generator.js`.  The Intermediate
Document Model (IDM) blocks consumed by the assembler are modelled by
`Inline`, `ListBlock` and `Block`; string-valued fields that JavaScript
tests for truthiness (`item.mathml`, `block.language`, …) keep their
string type, with the empty string playing the role of a falsy value, and
fields that may be absent are `Option`s.
-/

/-- An IDM inline item (`InlineItem` of the spec). -/
inductive Inline where
  | text (t : String)
  | bold (content : List Inline)
  | italic (content : List Inline)
  | code (t : String)
  | link (t href : String)
  | superscript (t : String)
  | subscript (t : String)
  | math (display : Bool) (latex : Option String) (mathml : Option String)
deriving Repr

/-- An IDM list block: ordered flag and items, each item being inline
content plus an optional nested list. -/
inductive ListBlock where
  | mk (ordered : Bool) (items : List (List Inline × Option ListBlock))
deriving Repr

/-- An IDM table row: header flag and the cells' inline content. -/
structure TableRow where
  isHeader : Bool
  cells : List (List Inline)
deriving Repr

/-- An IDM block (`Block` of the spec); `other` stands for any
unrecognised `type`, which `buildBlock` maps to the empty string. -/
inductive Block where
  | heading (level : Nat) (content : List Inline)
  | paragraph (content : List Inline)
  | list (lb : ListBlock)
  | table (rows : List TableRow)
  | codeBlock (language code : String)
  | math (display : Bool) (latex mathml : Option String)
  | blockquote (content : List Inline)
  | hr
  | other
deriving Repr

/-- An entry of the `images` collector of `buildDocx`.  No code path in
this file ever pushes to it, so it stays empty. -/
structure ImageEntry where
  filename : String
  data : String

/-- An entry of the `relationships` collector of `buildDocx` (also never
pushed to in this file). -/
structure DocRel where
  id : String
  type : String
  target : String

/-- The `ctx` record threaded through the block builders: the math mode
from the build options, and the (abstractly modelled) `DOMParser` used by
`mathmlToOmml` for embedded MathML. -/
structure Ctx where
  mathMode : String
  parseMathml : String → Option MNode

/-- The format record of `buildFormattedRuns` (`{ bold: …, italic: … }`;
an absent field is falsy). -/
structure RunFormat where
  bold : Bool
  italic : Bool

/-- `buildTextRun` (lines 471–474). -/
def buildTextRun (text : String) : String :=
  if text = "" then ""
  else "<w:r><w:t xml:space=\"preserve\">" ++ escapeXml text ++ "</w:t></w:r>"

/-- `buildCodeRun` (lines 479–481). -/
def buildCodeRun (text : String) : String :=
  "<w:r><w:rPr><w:rFonts w:ascii=\"Consolas\" w:hAnsi=\"Consolas\" w:cs=\"Consolas\"/><w:sz w:val=\"20\"/><w:szCs w:val=\"20\"/><w:shd w:val=\"clear\" w:color=\"auto\" w:fill=\"F5F5F5\"/></w:rPr><w:t xml:space=\"preserve\">" ++
    escapeXml text ++ "</w:t></w:r>"

/-- `buildLinkRun` (lines 486–489); the `href` is not rendered. -/
def buildLinkRun (text : String) (_href : String) : String :=
  "<w:r><w:rPr><w:rStyle w:val=\"Hyperlink\"/><w:color w:val=\"0563C1\"/><w:u w:val=\"single\"/></w:rPr><w:t xml:space=\"preserve\">" ++
    escapeXml text ++ "</w:t></w:r>"

/-- `buildVertAlignRun` (lines 494–496). -/
def buildVertAlignRun (text : String) (align : String) : String :=
  "<w:r><w:rPr><w:vertAlign w:val=\"" ++ align ++
    "\"/></w:rPr><w:t xml:space=\"preserve\">" ++ escapeXml text ++ "</w:t></w:r>"

/-- `buildInlineMath` (lines 501–512). -/
def buildInlineMath (latex mathml : Option String) (ctx : Ctx) : String :=
  let m := mathml.getD ""
  let l := latex.getD ""
  if ctx.mathMode = "omml" && m ≠ "" then
    mathmlToOmml (ctx.parseMathml m) m
  else if ctx.mathMode = "omml" && l ≠ "" then
    latexToOmml l false
  else
    let text := if l = "" then "formula" else l
    "<w:r><w:rPr><w:rFonts w:ascii=\"Cambria Math\" w:hAnsi=\"Cambria Math\"/><w:i/></w:rPr><w:t xml:space=\"preserve\">" ++
      escapeXml text ++ "</w:t></w:r>"

mutual

/-- `buildInlineRuns` (lines 402–438): the concatenated runs of a content
list. -/
def buildInlineRuns : List Inline → Ctx → String
  | [], _ => ""
  | it :: rest, ctx => buildInlineItem it ctx ++ buildInlineRuns rest ctx

/-- One arm of the `switch` in `buildInlineRuns`. -/
def buildInlineItem : Inline → Ctx → String
  | .text t, _ => buildTextRun t
  | .bold content, ctx => buildFormattedRuns content ⟨true, false⟩ ctx
  | .italic content, ctx => buildFormattedRuns content ⟨false, true⟩ ctx
  | .code t, _ => buildCodeRun t
  | .link t href, _ => buildLinkRun t href
  | .superscript t, _ => buildVertAlignRun t "superscript"
  | .subscript t, _ => buildVertAlignRun t "subscript"
  | .math _ latex mathml, ctx => buildInlineMath latex mathml ctx

/-- `buildFormattedRuns` (lines 443–466).  On an item handled by neither
branch the source calls `buildInlineRuns([item], ctx)`, which equals
`buildInlineItem item ctx`. -/
def buildFormattedRuns : List Inline → RunFormat → Ctx → String
  | [], _, _ => ""
  | it :: rest, format, ctx =>
    (match it with
     | .text t =>
       "<w:r><w:rPr>" ++ (if format.bold then "<w:b/>" else "") ++
         (if format.italic then "<w:i/>" else "") ++
         "</w:rPr><w:t xml:space=\"preserve\">" ++ escapeXml t ++ "</w:t></w:r>"
     | .code t => buildCodeRun t
     | .math _ latex mathml => buildInlineMath latex mathml ctx
     | .bold content => buildFormattedRuns content { format with bold := true } ctx
     | .italic content => buildFormattedRuns content { format with italic := true } ctx
     | other => buildInlineItem other ctx) ++
    buildFormattedRuns rest format ctx

end

/-- `buildHeading` (lines 383–388). -/
def buildHeading (level : Nat) (content : List Inline) (ctx : Ctx) : String :=
  let lvl := min level 6
  "<w:p><w:pPr><w:pStyle w:val=\"Heading" ++ toString lvl ++ "\"/></w:pPr>" ++
    buildInlineRuns content ctx ++ "</w:p>"

/-- `buildParagraph` (lines 393–397). -/
def buildParagraph (content : List Inline) (ctx : Ctx) : String :=
  let runs := buildInlineRuns content ctx
  if runs = "" then "" else "<w:p>" ++ runs ++ "</w:p>"

mutual

/-- `buildList` (lines 539–556): one `ListParagraph` per item with the
numbering id (`1` unordered, `2` ordered) and the indent level, recursing
into nested lists one level deeper. -/
def buildList (lb : ListBlock) (ctx : Ctx) (level : Nat := 0) : String :=
  match lb with
  | .mk ordered items =>
    let numId : Nat := if ordered then 2 else 1
    buildListItems numId items ctx level

/-- The `for` loop over the items of `buildList`. -/
def buildListItems (numId : Nat) :
    List (List Inline × Option ListBlock) → Ctx → Nat → String
  | [], _, _ => ""
  | (content, nested) :: rest, ctx, level =>
    let runs := buildInlineRuns content ctx
    "<w:p><w:pPr><w:pStyle w:val=\"ListParagraph\"/><w:numPr><w:ilvl w:val=\"" ++
      toString level ++ "\"/><w:numId w:val=\"" ++ toString numId ++
      "\"/></w:numPr></w:pPr>" ++ runs ++ "</w:p>" ++
    (match nested with
     | some nl => buildList nl ctx (level + 1)
     | none => "") ++
    buildListItems numId rest ctx level

end

/-- `buildTable` (lines 561–600). -/
def buildTable (rows : List TableRow) (ctx : Ctx) : String :=
  let tblPr := "<w:tbl><w:tblPr><w:tblStyle w:val=\"TableGrid\"/><w:tblW w:w=\"0\" w:type=\"auto\"/><w:tblBorders>" ++
    "<w:top w:val=\"single\" w:sz=\"4\" w:space=\"0\" w:color=\"999999\"/>" ++
    "<w:left w:val=\"single\" w:sz=\"4\" w:space=\"0\" w:color=\"999999\"/>" ++
    "<w:bottom w:val=\"single\" w:sz=\"4\" w:space=\"0\" w:color=\"999999\"/>" ++
    "<w:right w:val=\"single\" w:sz=\"4\" w:space=\"0\" w:color=\"999999\"/>" ++
    "<w:insideH w:val=\"single\" w:sz=\"4\" w:space=\"0\" w:color=\"999999\"/>" ++
    "<w:insideV w:val=\"single\" w:sz=\"4\" w:space=\"0\" w:color=\"999999\"/>" ++
    "</w:tblBorders><w:tblLook w:val=\"04A0\"/></w:tblPr>"
  let grid := match rows with
    | [] => ""
    | r :: _ =>
      let colCount := r.cells.length
      "<w:tblGrid>" ++
        String.join ((List.range colCount).map
          (fun _ => "<w:gridCol w:w=\"" ++ toString (9000 / colCount) ++ "\"/>")) ++
        "</w:tblGrid>"
  let body := String.join (rows.map (fun row =>
    "<w:tr>" ++
      String.join (row.cells.map (fun cell =>
        "<w:tc><w:tcPr>" ++
          (if row.isHeader then "<w:shd w:val=\"clear\" w:color=\"auto\" w:fill=\"F0F0F0\"/>" else "") ++
          "</w:tcPr>" ++
          "<w:p>" ++ (if row.isHeader then "<w:pPr><w:rPr><w:b/></w:rPr></w:pPr>" else "") ++
          buildInlineRuns cell ctx ++ "</w:p>" ++
          "</w:tc>")) ++
      "</w:tr>"))
  tblPr ++ grid ++ body ++ "</w:tbl>" ++
    "<w:p><w:pPr><w:spacing w:after=\"120\"/></w:pPr></w:p>"

/-- `buildCodeBlock` (lines 605–621). -/
def buildCodeBlock (language code : String) (_ctx : Ctx) : String :=
  let lines := code.splitOn "\n"
  let label :=
    if language ≠ "" then
      "<w:p><w:pPr><w:shd w:val=\"clear\" w:color=\"auto\" w:fill=\"E8E8E8\"/><w:spacing w:after=\"0\"/></w:pPr><w:r><w:rPr><w:rFonts w:ascii=\"Consolas\" w:hAnsi=\"Consolas\"/><w:sz w:val=\"18\"/><w:color w:val=\"666666\"/></w:rPr><w:t>" ++
        escapeXml language ++ "</w:t></w:r></w:p>"
    else ""
  label ++
    String.join (lines.map (fun line =>
      "<w:p><w:pPr><w:pStyle w:val=\"CodeBlock\"/><w:shd w:val=\"clear\" w:color=\"auto\" w:fill=\"F8F8F8\"/><w:spacing w:after=\"0\" w:line=\"260\" w:lineRule=\"auto\"/></w:pPr><w:r><w:rPr><w:rFonts w:ascii=\"Consolas\" w:hAnsi=\"Consolas\" w:cs=\"Consolas\"/><w:sz w:val=\"20\"/><w:szCs w:val=\"20\"/></w:rPr><w:t xml:space=\"preserve\">" ++
        escapeXml line ++ "</w:t></w:r></w:p>")) ++
    "<w:p><w:pPr><w:spacing w:after=\"120\"/></w:pPr></w:p>"

/-- `buildMathBlock` (lines 517–534). -/
def buildMathBlock (latex mathml : Option String) (ctx : Ctx) : String :=
  let m := mathml.getD ""
  let l := latex.getD ""
  if ctx.mathMode = "omml" then
    if m ≠ "" then
      "<w:p><w:pPr><w:jc w:val=\"center\"/></w:pPr>" ++
        mathmlToOmml (ctx.parseMathml m) m ++ "</w:p>"
    else if l ≠ "" then
      "<w:p><w:pPr><w:jc w:val=\"center\"/></w:pPr>" ++ latexToOmml l true ++ "</w:p>"
    else ""
  else
    let text := if l = "" then "formula" else l
    "<w:p><w:pPr><w:jc w:val=\"center\"/></w:pPr><w:r><w:rPr><w:rFonts w:ascii=\"Cambria Math\" w:hAnsi=\"Cambria Math\"/><w:i/></w:rPr><w:t xml:space=\"preserve\">" ++
      escapeXml text ++ "</w:t></w:r></w:p>"

/-- `buildBlockquote` (lines 626–629). -/
def buildBlockquote (content : List Inline) (ctx : Ctx) : String :=
  "<w:p><w:pPr><w:pBdr><w:left w:val=\"single\" w:sz=\"12\" w:space=\"4\" w:color=\"CCCCCC\"/></w:pBdr><w:ind w:left=\"360\"/><w:rPr><w:color w:val=\"666666\"/><w:i/></w:rPr></w:pPr>" ++
    buildInlineRuns content ctx ++ "</w:p>"

/-- `buildHorizontalRule` (lines 634–636). -/
def buildHorizontalRule : String :=
  "<w:p><w:pPr><w:pBdr><w:bottom w:val=\"single\" w:sz=\"6\" w:space=\"1\" w:color=\"CCCCCC\"/></w:pBdr><w:spacing w:after=\"120\"/></w:pPr></w:p>"

/-- `buildBlock` (lines 366–378). -/
def buildBlock (b : Block) (ctx : Ctx) : String :=
  match b with
  | .heading level content => buildHeading level content ctx
  | .paragraph content => buildParagraph content ctx
  | .list lb => buildList lb ctx 0
  | .table rows => buildTable rows ctx
  | .codeBlock language code => buildCodeBlock language code ctx
  | .math _ latex mathml => buildMathBlock latex mathml ctx
  | .blockquote content => buildBlockquote content ctx
  | .hr => buildHorizontalRule
  | .other => ""

/-- The image-extension loop of `generateContentTypes` (lines 640–649). -/
def imageTypes (images : List ImageEntry) : String :=
  (images.foldl
    (fun (st : List String × String) img =>
      let ext := ((img.filename.splitOn ".").getLast?).getD ""
      if st.1.contains ext then st
      else (ext :: st.1,
        st.2 ++ "<Default Extension=\"" ++ ext ++ "\" ContentType=\"image/" ++
          (if ext = "jpg" then "jpeg" else ext) ++ "\"/>"))
    ([], "")).2

/-- `generateContentTypes` (lines 640–663). -/
def generateContentTypes (images : List ImageEntry) : String :=
  "<?xml version=\"1.0\" encoding=\"UTF-8\" standalone=\"yes\"?>\n<Types xmlns=\"http://schemas.openxmlformats.org/package/2006/content-types\">\n  <Default Extension=\"rels\" ContentType=\"application/vnd.openxmlformats-package.relationships+xml\"/>\n  <Default Extension=\"xml\" ContentType=\"application/xml\"/>\n  " ++
    imageTypes images ++
    "\n  <Override PartName=\"/word/document.xml\" ContentType=\"application/vnd.openxmlformats-officedocument.wordprocessingml.document.main+xml\"/>\n  <Override PartName=\"/word/styles.xml\" ContentType=\"application/vnd.openxmlformats-officedocument.wordprocessingml.styles+xml\"/>\n  <Override PartName=\"/word/settings.xml\" ContentType=\"application/vnd.openxmlformats-officedocument.wordprocessingml.settings+xml\"/>\n  <Override PartName=\"/word/fontTable.xml\" ContentType=\"application/vnd.openxmlformats-officedocument.wordprocessingml.fontTable+xml\"/>\n  <Override PartName=\"/docProps/core.xml\" ContentType=\"application/vnd.openxmlformats-package.core-properties+xml\"/>\n  <Override PartName=\"/docProps/app.xml\" ContentType=\"application/vnd.openxmlformats-officedocument.extended-properties+xml\"/>\n</Types>"

/-- `generateRootRels` (lines 665–672). -/
def generateRootRels : String :=
  "<?xml version=\"1.0\" encoding=\"UTF-8\" standalone=\"yes\"?>\n<Relationships xmlns=\"http://schemas.openxmlformats.org/package/2006/relationships\">\n  <Relationship Id=\"rId1\" Type=\"http://schemas.openxmlformats.org/officeDocument/2006/relationships/officeDocument\" Target=\"word/document.xml\"/>\n  <Relationship Id=\"rId2\" Type=\"http://schemas.openxmlformats.org/package/2006/relationships/metadata/core-properties\" Target=\"docProps/core.xml\"/>\n  <Relationship Id=\"rId3\" Type=\"http://schemas.openxmlformats.org/officeDocument/2006/relationships/extended-properties\" Target=\"docProps/app.xml\"/>\n</Relationships>"

/-- `generateDocumentXml` (lines 674–701). -/
def generateDocumentXml (bodyContent : String) : String :=
  "<?xml version=\"1.0\" encoding=\"UTF-8\" standalone=\"yes\"?>\n<w:document\n  xmlns:wpc=\"http://schemas.microsoft.com/office/word/2010/wordprocessingCanvas\"\n  xmlns:mc=\"http://schemas.openxmlformats.org/markup-compatibility/2006\"\n  xmlns:o=\"urn:schemas-microsoft-com:office:office\"\n  xmlns:r=\"http://schemas.openxmlformats.org/officeDocument/2006/relationships\"\n  xmlns:m=\"http://schemas.openxmlformats.org/officeDocument/2006/math\"\n  xmlns:v=\"urn:schemas-microsoft-com:vml\"\n  xmlns:wp=\"http://schemas.openxmlformats.org/drawingDocument/2006/wordprocessingDrawing\"\n  xmlns:w10=\"urn:schemas-microsoft-com:office:word\"\n  xmlns:w=\"http://schemas.openxmlformats.org/wordprocessingml/2006/main\"\n  xmlns:w14=\"http://schemas.microsoft.com/office/word/2010/wordml\"\n  xmlns:wpg=\"http://schemas.microsoft.com/office/word/2010/wordprocessingGroup\"\n  xmlns:wpi=\"http://schemas.microsoft.com/office/word/2010/wordprocessingInk\"\n  xmlns:wne=\"http://schemas.microsoft.com/office/word/2006/wordml\"\n  xmlns:wps=\"http://schemas.microsoft.com/office/word/2010/wordprocessingShape\"\n  mc:Ignorable=\"w14 wp14\">\n  <w:body>\n    " ++
    bodyContent ++
    "\n    <w:sectPr>\n      <w:pgSz w:w=\"12240\" w:h=\"15840\"/>\n      <w:pgMar w:top=\"1440\" w:right=\"1440\" w:bottom=\"1440\" w:left=\"1440\" w:header=\"720\" w:footer=\"720\" w:gutter=\"0\"/>\n      <w:cols w:space=\"720\"/>\n    </w:sectPr>\n  </w:body>\n</w:document>"

/-- `generateStyles` (lines 703–878), verbatim. -/
def generateStyles : String :=
  "<?xml version=\"1.0\" encoding=\"UTF-8\" standalone=\"yes\"?>\n<w:styles xmlns:w=\"http://schemas.openxmlformats.org/wordprocessingml/2006/main\"\n          xmlns:mc=\"http://schemas.openxmlformats.org/markup-compatibility/2006\"\n          mc:Ignorable=\"w14\">\n  <w:docDefaults>\n    <w:rPrDefault>\n      <w:rPr>\n        <w:rFonts w:ascii=\"Calibri\" w:eastAsia=\"Calibri\" w:hAnsi=\"Calibri\" w:cs=\"Times New Roman\"/>\n        <w:sz w:val=\"22\"/>\n        <w:szCs w:val=\"22\"/>\n        <w:lang w:val=\"ru-RU\" w:eastAsia=\"en-US\" w:bidi=\"ar-SA\"/>\n      </w:rPr>\n    </w:rPrDefault>\n    <w:pPrDefault>\n      <w:pPr>\n        <w:spacing w:after=\"160\" w:line=\"276\" w:lineRule=\"auto\"/>\n      </w:pPr>\n    </w:pPrDefault>\n  </w:docDefaults>\n  \n  <w:style w:type=\"paragraph\" w:default=\"1\" w:styleId=\"Normal\">\n    <w:name w:val=\"Normal\"/>\n    <w:qFormat/>\n  </w:style>\n  \n  <w:style w:type=\"paragraph\" w:styleId=\"Heading1\">\n    <w:name w:val=\"heading 1\"/>\n    <w:basedOn w:val=\"Normal\"/>\n    <w:next w:val=\"Normal\"/>\n    <w:qFormat/>\n    <w:pPr>\n      <w:keepNext/>\n      <w:spacing w:before=\"360\" w:after=\"120\"/>\n    </w:pPr>\n    <w:rPr>\n      <w:rFonts w:ascii=\"Calibri Light\" w:hAnsi=\"Calibri Light\"/>\n      <w:b/>\n      <w:color w:val=\"2F5496\"/>\n      <w:sz w:val=\"40\"/>\n      <w:szCs w:val=\"40\"/>\n    </w:rPr>\n  </w:style>\n  \n  <w:style w:type=\"paragraph\" w:styleId=\"Heading2\">\n    <w:name w:val=\"heading 2\"/>\n    <w:basedOn w:val=\"Normal\"/>\n    <w:next w:val=\"Normal\"/>\n    <w:qFormat/>\n    <w:pPr>\n      <w:keepNext/>\n      <w:spacing w:before=\"240\" w:after=\"80\"/>\n    </w:pPr>\n    <w:rPr>\n      <w:rFonts w:ascii=\"Calibri Light\" w:hAnsi=\"Calibri Light\"/>\n      <w:b/>\n      <w:color w:val=\"2F5496\"/>\n      <w:sz w:val=\"32\"/>\n      <w:szCs w:val=\"32\"/>\n    </w:rPr>\n  </w:style>\n  \n  <w:style w:type=\"paragraph\" w:styleId=\"Heading3\">\n    <w:name w:val=\"heading 3\"/>\n    <w:basedOn w:val=\"Normal\"/>\n    <w:next w:val=\"Normal\"/>\n    <w:qFormat/>\n    <w:pPr>\n      <w:keepNext/>\n      <w:spacing w:before=\"200\" w:after=\"60\"/>\n    </w:pPr>\n    <w:rPr>\n      <w:rFonts w:ascii=\"Calibri Light\" w:hAnsi=\"Calibri Light\"/>\n      <w:b/>\n      <w:color w:val=\"2F5496\"/>\n      <w:sz w:val=\"28\"/>\n      <w:szCs w:val=\"28\"/>\n    </w:rPr>\n  </w:style>\n  \n  <w:style w:type=\"paragraph\" w:styleId=\"Heading4\">\n    <w:name w:val=\"heading 4\"/>\n    <w:basedOn w:val=\"Normal\"/>\n    <w:next w:val=\"Normal\"/>\n    <w:qFormat/>\n    <w:pPr>\n      <w:keepNext/>\n      <w:spacing w:before=\"160\" w:after=\"40\"/>\n    </w:pPr>\n    <w:rPr>\n      <w:b/>\n      <w:i/>\n      <w:color w:val=\"2F5496\"/>\n      <w:sz w:val=\"24\"/>\n      <w:szCs w:val=\"24\"/>\n    </w:rPr>\n  </w:style>\n\n  <w:style w:type=\"paragraph\" w:styleId=\"Heading5\">\n    <w:name w:val=\"heading 5\"/>\n    <w:basedOn w:val=\"Normal\"/>\n    <w:next w:val=\"Normal\"/>\n    <w:qFormat/>\n    <w:pPr><w:keepNext/><w:spacing w:before=\"120\" w:after=\"40\"/></w:pPr>\n    <w:rPr><w:b/><w:color w:val=\"2F5496\"/></w:rPr>\n  </w:style>\n\n  <w:style w:type=\"paragraph\" w:styleId=\"Heading6\">\n    <w:name w:val=\"heading 6\"/>\n    <w:basedOn w:val=\"Normal\"/>\n    <w:next w:val=\"Normal\"/>\n    <w:qFormat/>\n    <w:pPr><w:keepNext/><w:spacing w:before=\"120\" w:after=\"40\"/></w:pPr>\n    <w:rPr><w:b/><w:i/><w:color w:val=\"595959\"/></w:rPr>\n  </w:style>\n  \n  <w:style w:type=\"paragraph\" w:styleId=\"ListParagraph\">\n    <w:name w:val=\"List Paragraph\"/>\n    <w:basedOn w:val=\"Normal\"/>\n    <w:qFormat/>\n    <w:pPr>\n      <w:ind w:left=\"720\"/>\n    </w:pPr>\n  </w:style>\n  \n  <w:style w:type=\"paragraph\" w:styleId=\"CodeBlock\">\n    <w:name w:val=\"Code Block\"/>\n    <w:basedOn w:val=\"Normal\"/>\n    <w:pPr>\n      <w:spacing w:after=\"0\" w:line=\"260\" w:lineRule=\"auto\"/>\n      <w:shd w:val=\"clear\" w:color=\"auto\" w:fill=\"F8F8F8\"/>\n    </w:pPr>\n    <w:rPr>\n      <w:rFonts w:ascii=\"Consolas\" w:hAnsi=\"Consolas\" w:cs=\"Consolas\"/>\n      <w:sz w:val=\"20\"/>\n      <w:szCs w:val=\"20\"/>\n    </w:rPr>\n  </w:style>\n  \n  <w:style w:type=\"table\" w:styleId=\"TableGrid\">\n    <w:name w:val=\"Table Grid\"/>\n    <w:basedOn w:val=\"TableNormal\"/>\n    <w:tblPr>\n      <w:tblBorders>\n        <w:top w:val=\"single\" w:sz=\"4\" w:space=\"0\" w:color=\"auto\"/>\n        <w:left w:val=\"single\" w:sz=\"4\" w:space=\"0\" w:color=\"auto\"/>\n        <w:bottom w:val=\"single\" w:sz=\"4\" w:space=\"0\" w:color=\"auto\"/>\n        <w:right w:val=\"single\" w:sz=\"4\" w:space=\"0\" w:color=\"auto\"/>\n        <w:insideH w:val=\"single\" w:sz=\"4\" w:space=\"0\" w:color=\"auto\"/>\n        <w:insideV w:val=\"single\" w:sz=\"4\" w:space=\"0\" w:color=\"auto\"/>\n      </w:tblBorders>\n    </w:tblPr>\n  </w:style>\n\n  <w:style w:type=\"table\" w:default=\"1\" w:styleId=\"TableNormal\">\n    <w:name w:val=\"Normal Table\"/>\n    <w:tblPr>\n      <w:tblInd w:w=\"0\" w:type=\"dxa\"/>\n      <w:tblCellMar>\n        <w:top w:w=\"0\" w:type=\"dxa\"/>\n        <w:left w:w=\"108\" w:type=\"dxa\"/>\n        <w:bottom w:w=\"0\" w:type=\"dxa\"/>\n        <w:right w:w=\"108\" w:type=\"dxa\"/>\n      </w:tblCellMar>\n    </w:tblPr>\n  </w:style>\n\n  <w:style w:type=\"character\" w:styleId=\"Hyperlink\">\n    <w:name w:val=\"Hyperlink\"/>\n    <w:rPr>\n      <w:color w:val=\"0563C1\"/>\n      <w:u w:val=\"single\"/>\n    </w:rPr>\n  </w:style>\n</w:styles>"

/-- `generateSettings` (lines 880–906), verbatim: carries the math
defaults (`m:mathPr`) with the fixed `Cambria Math` math font. -/
def generateSettings : String :=
  "<?xml version=\"1.0\" encoding=\"UTF-8\" standalone=\"yes\"?>\n<w:settings xmlns:w=\"http://schemas.openxmlformats.org/wordprocessingml/2006/main\"\n            xmlns:m=\"http://schemas.openxmlformats.org/officeDocument/2006/math\"\n            xmlns:mc=\"http://schemas.openxmlformats.org/markup-compatibility/2006\"\n            mc:Ignorable=\"w14\">\n  <w:zoom w:percent=\"100\"/>\n  <w:defaultTabStop w:val=\"720\"/>\n  <m:mathPr>\n    <m:mathFont m:val=\"Cambria Math\"/>\n    <m:brkBin m:val=\"before\"/>\n    <m:brkBinSub m:val=\"--\"/>\n    <m:smallFrac m:val=\"0\"/>\n    <m:dispDef/>\n    <m:lMargin m:val=\"0\"/>\n    <m:rMargin m:val=\"0\"/>\n    <m:defJc m:val=\"centerGroup\"/>\n    <m:wrapIndent m:val=\"1440\"/>\n    <m:intLim m:val=\"subSup\"/>\n    <m:naryLim m:val=\"undOvr\"/>\n  </m:mathPr>\n  <w:characterSpacingControl w:val=\"doNotCompress\"/>\n  <w:compat>\n    <w:compatSetting w:name=\"compatibilityMode\" w:uri=\"http://schemas.microsoft.com/office/word\" w:val=\"15\"/>\n  </w:compat>\n</w:settings>"

/-- `generateFontTable` (lines 908–942), verbatim. -/
def generateFontTable : String :=
  "<?xml version=\"1.0\" encoding=\"UTF-8\" standalone=\"yes\"?>\n<w:fonts xmlns:w=\"http://schemas.openxmlformats.org/wordprocessingml/2006/main\">\n  <w:font w:name=\"Calibri\">\n    <w:panose1 w:val=\"020F0502020204030204\"/>\n    <w:charset w:val=\"CC\"/>\n    <w:family w:val=\"swiss\"/>\n    <w:pitch w:val=\"variable\"/>\n  </w:font>\n  <w:font w:name=\"Calibri Light\">\n    <w:panose1 w:val=\"020F0302020204030204\"/>\n    <w:charset w:val=\"CC\"/>\n    <w:family w:val=\"swiss\"/>\n    <w:pitch w:val=\"variable\"/>\n  </w:font>\n  <w:font w:name=\"Times New Roman\">\n    <w:panose1 w:val=\"02020603050405020304\"/>\n    <w:charset w:val=\"CC\"/>\n    <w:family w:val=\"roman\"/>\n    <w:pitch w:val=\"variable\"/>\n  </w:font>\n  <w:font w:name=\"Consolas\">\n    <w:panose1 w:val=\"020B0609020204030204\"/>\n    <w:charset w:val=\"CC\"/>\n    <w:family w:val=\"modern\"/>\n    <w:pitch w:val=\"fixed\"/>\n  </w:font>\n  <w:font w:name=\"Cambria Math\">\n    <w:panose1 w:val=\"02040503050406030204\"/>\n    <w:charset w:val=\"CC\"/>\n    <w:family w:val=\"roman\"/>\n    <w:pitch w:val=\"variable\"/>\n  </w:font>\n</w:fonts>"

/-- `generateDocumentRels` (lines 944–957): always references styles,
settings and fontTable, plus one entry per extra relationship. -/
def generateDocumentRels (extraRels : List DocRel) : String :=
  "<?xml version=\"1.0\" encoding=\"UTF-8\" standalone=\"yes\"?>\n<Relationships xmlns=\"http://schemas.openxmlformats.org/package/2006/relationships\">\n  <Relationship Id=\"rId1\" Type=\"http://schemas.openxmlformats.org/officeDocument/2006/relationships/styles\" Target=\"styles.xml\"/>\n  <Relationship Id=\"rId2\" Type=\"http://schemas.openxmlformats.org/officeDocument/2006/relationships/settings\" Target=\"settings.xml\"/>\n  <Relationship Id=\"rId3\" Type=\"http://schemas.openxmlformats.org/officeDocument/2006/relationships/fontTable\" Target=\"fontTable.xml\"/>" ++
    String.join (extraRels.map (fun rel =>
      "\n  <Relationship Id=\"" ++ rel.id ++ "\" Type=\"" ++ rel.type ++
        "\" Target=\"" ++ rel.target ++ "\"/>")) ++
    "\n</Relationships>"

/-- `generateAppProps` (lines 959–967); the `title` parameter is unused in
the source body. -/
def generateAppProps (_title : String) : String :=
  "<?xml version=\"1.0\" encoding=\"UTF-8\" standalone=\"yes\"?>\n<Properties xmlns=\"http://schemas.openxmlformats.org/officeDocument/2006/extended-properties\">\n  <Application>ChatGPT Word Copier Extension</Application>\n  <DocSecurity>0</DocSecurity>\n  <ScaleCrop>false</ScaleCrop>\n  <Company>ChatGPT</Company>\n</Properties>"

/-- `generateCoreProps` (lines 969–981).  The source reads the wall clock
(`new Date().toISOString()`); that read is modelled by the explicit
parameter `now`. -/
def generateCoreProps (title : String) (now : String) : String :=
  "<?xml version=\"1.0\" encoding=\"UTF-8\" standalone=\"yes\"?>\n<cp:coreProperties xmlns:cp=\"http://schemas.openxmlformats.org/package/2006/metadata/core-properties\"\n                   xmlns:dc=\"http://purl.org/dc/elements/1.1/\"\n                   xmlns:dcterms=\"http://purl.org/dc/terms/\"\n                   xmlns:xsi=\"http://www.w3.org/2001/XMLSchema-instance\">\n  <dc:title>" ++
    escapeXml title ++
    "</dc:title>\n  <dc:creator>ChatGPT Word Copier</dc:creator>\n  <dcterms:created xsi:type=\"dcterms:W3CDTF\">" ++
    now ++
    "</dcterms:created>\n  <dcterms:modified xsi:type=\"dcterms:W3CDTF\">" ++
    now ++
    "</dcterms:modified>\n</cp:coreProperties>"

/-- The build options of `buildDocx`; absent fields default to
`'ChatGPT Response'` / `'omml'` at the destructuring. -/
structure BuildOptions where
  title : Option String := none
  mathMode : Option String := none

/-- `buildDocx` (lines 305–361): the archive as an ordered list of
(path, content) pairs, mirroring the `zip.file` calls.  The ZIP
serialisation (`zip.generateAsync`) is outside the model.  `parseMathml`
abstracts the browser `DOMParser` used for embedded MathML; `now` is the
wall-clock read in `generateCoreProps`.  Nothing in this file pushes to
`images` or `relationships`, so both collectors stay empty. -/
def buildDocx (blocks : List Block) (options : BuildOptions)
    (parseMathml : String → Option MNode) (now : String) : List (String × String) :=
  let title := options.title.getD "ChatGPT Response"
  let mathMode := options.mathMode.getD "omml"
  let images : List ImageEntry := []
  let relationships : List DocRel := []
  let ctx : Ctx := ⟨mathMode, parseMathml⟩
  let bodyContent := String.join (blocks.map (fun block => buildBlock block ctx))
  [("[Content_Types].xml", generateContentTypes images),
   ("_rels/.rels", generateRootRels),
   ("word/document.xml", generateDocumentXml bodyContent),
   ("word/styles.xml", generateStyles),
   ("word/settings.xml", generateSettings),
   ("word/fontTable.xml", generateFontTable),
   ("word/_rels/document.xml.rels", generateDocumentRels relationships),
   ("docProps/app.xml", generateAppProps title),
   ("docProps/core.xml", generateCoreProps title now)] ++
  images.map (fun img => ("word/media/" ++ img.filename, img.data))

/-- One list-item paragraph as the spec describes it: a `ListParagraph`
paragraph whose numbering reference is id `1` for an unordered list and
`2` for an ordered one, and whose indent level is the nesting depth. -/
def specListItemParagraph (ordered : Bool) (content : List Inline) (ctx : Ctx)
    (depth : Nat) : String :=
  "<w:p><w:pPr><w:pStyle w:val=\"ListParagraph\"/><w:numPr><w:ilvl w:val=\"" ++
    toString depth ++ "\"/><w:numId w:val=\"" ++
    toString (if ordered then (2 : Nat) else 1) ++ "\"/></w:numPr></w:pPr>" ++
    buildInlineRuns content ctx ++ "</w:p>"

mutual

/-- The list rendering as described by the spec (for comparison with the
source's `buildList`): one paragraph per item carrying the numbering id
for the list's ordered-ness and the indent level, with each item's nested
list rendered one indent level deeper. -/
def buildListSpec (lb : ListBlock) (ctx : Ctx) (depth : Nat) : String :=
  match lb with
  | .mk ordered items => String.join (buildListSpecItems ordered items ctx depth)

/-- The per-item strings of `buildListSpec`, in order. -/
def buildListSpecItems (ordered : Bool) :
    List (List Inline × Option ListBlock) → Ctx → Nat → List String
  | [], _, _ => []
  | (content, nested) :: rest, ctx, depth =>
    (specListItemParagraph ordered content ctx depth ++
      (match nested with
       | some nl => buildListSpec nl ctx (depth + 1)
       | none => "")) ::
    buildListSpecItems ordered rest ctx depth

end

/-- A character that none of the LaTeX parser's special cases consumes:
not a brace, script operator, backslash or space. -/
def notSpecialChar (c : Char) : Prop :=
  c ≠ '{' ∧ c ≠ '}' ∧ c ≠ '^' ∧ c ≠ '_' ∧ c ≠ '\\' ∧ c ≠ ' '

instance (c : Char) : Decidable (notSpecialChar c) := by
  unfold notSpecialChar; infer_instance

/-!
## The run-font invariant

`RunsOkL l` states that every occurrence of the run opener `<m:r>` in `l`
is immediately followed by the full Cambria Math font directive
`<w:rPr><w:rFonts w:ascii="Cambria Math" w:hAnsi="Cambria Math"/></w:rPr>`
— the formal reading of "every text run carries the math-font directive".
`NoStraddleL` additionally forbids a dangling proper prefix of `<m:r>` at
the end of the string, which makes the invariant compositional under
concatenation.
-/

/-- The characters of the OMML run opener `<m:r>`. -/
def runPat : List Char := "<m:r>".data

/-- The characters of the Cambria Math font directive emitted by
`makeRun`. -/
def fontPr : List Char :=
  "<w:rPr><w:rFonts w:ascii=\"Cambria Math\" w:hAnsi=\"Cambria Math\"/></w:rPr>".data

/-- Every occurrence of `<m:r>` is immediately followed by the Cambria
Math font directive. -/
def RunsOkL (l : List Char) : Prop :=
  ∀ i < l.length, runPat <+: l.drop i → fontPr <+: l.drop (i + 5)

/-- No non-empty proper prefix of `<m:r>` is a suffix of `l`. -/
def NoStraddleL (l : List Char) : Prop :=
  ∀ i < l.length, l.length < i + 5 → ¬ (l.drop i <+: runPat)

/-- The compositional run-font invariant. -/
def GoodL (l : List Char) : Prop := RunsOkL l ∧ NoStraddleL l

/-- `RunsOkL` on the characters of a string. -/
def RunsOk (s : String) : Prop := RunsOkL s.data

/-- `GoodL` on the characters of a string. -/
def GoodStr (s : String) : Prop := GoodL s.data

instance (l : List Char) : Decidable (RunsOkL l) := by
  unfold RunsOkL; infer_instance

instance (l : List Char) : Decidable (NoStraddleL l) := by
  unfold NoStraddleL; infer_instance

instance (l : List Char) : Decidable (GoodL l) := by
  unfold GoodL; infer_instance

instance (s : String) : Decidable (RunsOk s) := by
  unfold RunsOk; infer_instance

instance (s : String) : Decidable (GoodStr s) := by
  unfold GoodStr; infer_instance

theorem prefix_of_prefix_append {p a b : List Char} (h : p <+: a ++ b)
    (hl : p.length ≤ a.length) : p <+: a := by
  have h1 : p = (a ++ b).take p.length := List.prefix_iff_eq_take.mp h
  rw [List.take_append_of_le_length hl] at h1
  rw [h1]
  exact List.take_prefix _ a

theorem prefix_left_of_prefix_ge {x y b : List Char} (h : y <+: x ++ b)
    (hl : x.length ≤ y.length) : x <+: y := by
  have h1 : y = (x ++ b).take y.length := List.prefix_iff_eq_take.mp h
  have h2 : x = y.take x.length := by
    rw [h1, List.take_take, Nat.min_eq_left hl, List.take_left]
  rw [h2]
  exact List.take_prefix _ y

theorem runPat_length : runPat.length = 5 := rfl

theorem goodL_append {a b : List Char} (ha : GoodL a) (hb : GoodL b) :
    GoodL (a ++ b) := by
  constructor
  · intro i hi hp
    rcases Nat.lt_or_ge i a.length with hia | hia
    · rcases le_or_lt (i + 5) a.length with h5 | h5
      · have hd : (a ++ b).drop i = a.drop i ++ b :=
          List.drop_append_of_le_length (by omega)
        rw [hd] at hp
        have hpa : runPat <+: a.drop i := by
          apply prefix_of_prefix_append hp
          rw [runPat_length, List.length_drop]
          omega
        have hf := ha.1 i hia hpa
        have hd2 : (a ++ b).drop (i + 5) = a.drop (i + 5) ++ b :=
          List.drop_append_of_le_length (by omega)
        rw [hd2]
        exact hf.trans (List.prefix_append _ _)
      · exfalso
        have hd : (a ++ b).drop i = a.drop i ++ b :=
          List.drop_append_of_le_length (Nat.le_of_lt hia)
        rw [hd] at hp
        have hxy : a.drop i <+: runPat := by
          apply prefix_left_of_prefix_ge hp
          rw [runPat_length, List.length_drop]
          omega
        exact ha.2 i hia (by omega) hxy
    · obtain ⟨j, rfl⟩ : ∃ j, i = a.length + j := ⟨i - a.length, by omega⟩
      rw [List.drop_append] at hp
      have hj : j < b.length := by
        rw [List.length_append] at hi; omega
      have hf := hb.1 j hj hp
      have hd2 : (a ++ b).drop (a.length + j + 5) = b.drop (j + 5) := by
        have he : a.length + j + 5 = a.length + (j + 5) := by omega
        rw [he, List.drop_append]
      rw [hd2]
      exact hf
  · intro i hi hlen hpref
    rcases Nat.lt_or_ge i a.length with hia | hia
    · have hd : (a ++ b).drop i = a.drop i ++ b :=
        List.drop_append_of_le_length (Nat.le_of_lt hia)
      rw [hd] at hpref
      have hxa : a.drop i <+: runPat := (List.prefix_append (a.drop i) b).trans hpref
      apply ha.2 i hia ?_ hxa
      rw [List.length_append] at hlen
      omega
    · obtain ⟨j, rfl⟩ : ∃ j, i = a.length + j := ⟨i - a.length, by omega⟩
      rw [List.drop_append] at hpref
      rw [List.length_append] at hi hlen
      exact hb.2 j (by omega) (by omega) hpref

theorem goodStr_append {s t : String} (hs : GoodStr s) (ht : GoodStr t) :
    GoodStr (s ++ t) := by
  unfold GoodStr at *
  rw [String.data_append]
  exact goodL_append hs ht

theorem goodStr_empty : GoodStr "" := by decide

theorem goodL_of_no_lt {l : List Char} (h : '<' ∉ l) : GoodL l := by
  have hpat : runPat = '<' :: ['m', ':', 'r', '>'] := rfl
  constructor
  · intro i _ hp
    exfalso
    obtain ⟨t, ht⟩ := hp
    apply h
    have : '<' ∈ l.drop i := by
      rw [← ht, hpat]
      simp
    exact List.mem_of_mem_drop this
  · intro i hi _ hpref
    have hne : l.drop i ≠ [] := by
      intro hnil
      have := List.length_drop i l
      rw [hnil] at this
      simp at this
      omega
    obtain ⟨c, cs, hcons⟩ := List.exists_cons_of_ne_nil hne
    obtain ⟨t, ht⟩ := hpref
    rw [hcons, hpat] at ht
    have hc : c = '<' := by
      injection ht with h1 _
    apply h
    have : '<' ∈ l.drop i := by rw [hcons, hc]; simp
    exact List.mem_of_mem_drop this

theorem goodStr_of_no_lt {s : String} (h : '<' ∉ s.data) : GoodStr s :=
  goodL_of_no_lt h

theorem goodStr_join {l : List String} (h : ∀ s ∈ l, GoodStr s) :
    GoodStr (String.join l) := by
  have haux : ∀ (l : List String) (acc : String), (∀ s ∈ l, GoodStr s) →
      GoodStr acc → GoodStr (l.foldl (fun r s => r ++ s) acc) := by
    intro l
    induction l with
    | nil => intro acc _ hacc; exact hacc
    | cons x xs ih =>
      intro acc hmem hacc
      exact ih (acc ++ x) (fun s hs => hmem s (List.mem_cons_of_mem _ hs))
        (goodStr_append hacc (hmem x (List.mem_cons_self _ _)))
  exact haux l "" h goodStr_empty

theorem not_mem_replaceCharL {y c : Char} {r l : List Char}
    (hr : y ∉ r) (hl : y = c ∨ y ∉ l) : y ∉ replaceCharL c r l := by
  induction l with
  | nil => simp [replaceCharL]
  | cons x xs ih =>
    simp only [replaceCharL, List.mem_append]
    rintro (hin | hin)
    · by_cases hx : x = c
      · rw [if_pos hx] at hin; exact hr hin
      · rw [if_neg hx] at hin
        simp at hin
        rcases hl with rfl | hl
        · exact hx hin.symm
        · exact hl (by rw [hin]; exact List.mem_cons_self _ _)
    · apply ih ?_ hin
      rcases hl with rfl | hl
      · exact Or.inl rfl
      · exact Or.inr (fun hm => hl (List.mem_cons_of_mem _ hm))

theorem no_lt_escapeXml (s : String) : '<' ∉ (escapeXml s).data := by
  unfold escapeXml replaceAllChar
  apply not_mem_replaceCharL (by decide)
  apply Or.inr
  apply not_mem_replaceCharL (by decide)
  apply Or.inr
  apply not_mem_replaceCharL (by decide)
  apply Or.inr
  apply not_mem_replaceCharL (by decide)
  exact Or.inl rfl

theorem goodStr_escapeXml (s : String) : GoodStr (escapeXml s) :=
  goodStr_of_no_lt (no_lt_escapeXml s)

theorem goodStr_natRepr (n : Nat) : GoodStr (toString n) := by
  apply goodStr_of_no_lt
  show '<' ∉ (Nat.toDigits 10 n).asString.data
  have hdc : ∀ m, m < 10 → Nat.digitChar m ≠ '<' := by
    intro m hm
    interval_cases m <;> decide
  have haux : ∀ (fuel n : Nat) (ds : List Char), ('<' ∉ ds) →
      '<' ∉ Nat.toDigitsCore 10 fuel n ds := by
    intro fuel
    induction fuel with
    | zero => intro n ds hds; simpa [Nat.toDigitsCore] using hds
    | succ f ih =>
      intro n ds hds
      unfold Nat.toDigitsCore
      dsimp only
      split
      · intro hmem
        rcases List.mem_cons.mp hmem with hc | hc
        · exact hdc _ (Nat.mod_lt _ (by norm_num)) hc.symm
        · exact hds hc
      · apply ih
        intro hmem
        rcases List.mem_cons.mp hmem with hc | hc
        · exact hdc _ (Nat.mod_lt _ (by norm_num)) hc.symm
        · exact hds hc
  exact haux _ _ _ (by simp)

/-- `makeRun` at its (universal) default call pattern: the run opener is
followed by the font directive, the escaped text contains no `<`, and the
closing literal keeps the invariant compositional. -/
theorem goodStr_makeRun (text : String) : GoodStr (makeRun text) := by
  have he : makeRun text =
      ("<m:r><w:rPr><w:rFonts w:ascii=\"Cambria Math\" w:hAnsi=\"Cambria Math\"/></w:rPr><m:t>" ++
        escapeXml text) ++ "</m:t></m:r>" := by
    unfold makeRun
    simp [String.append_assoc]
  rw [he]
  exact goodStr_append (goodStr_append
    (by decide : GoodStr "<m:r><w:rPr><w:rFonts w:ascii=\"Cambria Math\" w:hAnsi=\"Cambria Math\"/></w:rPr><m:t>")
    (goodStr_escapeXml text)) (by decide)

theorem goodStr_ctrlPr : GoodStr ctrlPr := by decide

theorem mem_elemKids_snd {children : List MNode} {kids : List String}
    {p : MNode × String} (hp : p ∈ elemKids children kids) : p.2 ∈ kids := by
  unfold elemKids at hp
  exact (List.of_mem_zip (List.mem_of_mem_filter hp)).2

theorem goodKids_elemKids {children : List MNode} {kids : List String}
    (h : ∀ s ∈ kids, GoodStr s) :
    ∀ p ∈ elemKids children kids, GoodStr p.2 :=
  fun p hp => h p.2 (mem_elemKids_snd hp)

theorem goodStr_nthElemOmml {ep : List (MNode × String)}
    (h : ∀ p ∈ ep, GoodStr p.2) (i : Nat) : GoodStr (nthElemOmml ep i) := by
  unfold nthElemOmml
  cases hm : ep[i]? with
  | none => simp only [hm]; exact goodStr_makeRun ""
  | some p => simp only [hm]; exact h p (List.getElem?_mem hm)

theorem goodStr_opt_snd {ep : List (MNode × String)}
    (h : ∀ p ∈ ep, GoodStr p.2) (i : Nat) :
    GoodStr (match ep[i]? with | some p => p.2 | none => makeRun "") := by
  cases hm : ep[i]? with
  | none => simp only [hm]; exact goodStr_makeRun ""
  | some p => simp only [hm]; exact h p (List.getElem?_mem hm)

theorem goodStr_convertToken (children : List MNode) :
    GoodStr (convertToken children) := by
  unfold convertToken
  dsimp only
  split
  · exact goodStr_empty
  · exact goodStr_makeRun _

theorem goodStr_convertFraction (attrs : List (String × String))
    (ep : List (MNode × String)) (h : ∀ p ∈ ep, GoodStr p.2) :
    GoodStr (convertFraction attrs ep) := by
  unfold convertFraction
  dsimp only
  refine goodStr_append ?_ (by decide)
  refine goodStr_append ?_ (goodStr_nthElemOmml h 1)
  refine goodStr_append ?_ (by decide)
  refine goodStr_append ?_ (goodStr_nthElemOmml h 0)
  refine goodStr_append ?_ (by decide)
  refine goodStr_append (by decide) ?_
  split
  · refine goodStr_append (goodStr_append (by decide) goodStr_ctrlPr) (by decide)
  · refine goodStr_append (goodStr_append (by decide) goodStr_ctrlPr) (by decide)

theorem goodStr_convertSuperscript (ep : List (MNode × String))
    (h : ∀ p ∈ ep, GoodStr p.2) : GoodStr (convertSuperscript ep) := by
  unfold convertSuperscript
  refine goodStr_append ?_ (by decide)
  refine goodStr_append ?_ (goodStr_nthElemOmml h 1)
  refine goodStr_append ?_ (by decide)
  refine goodStr_append ?_ (goodStr_nthElemOmml h 0)
  refine goodStr_append ?_ (by decide)
  exact goodStr_append (by decide) goodStr_ctrlPr

theorem goodStr_convertSubscript (ep : List (MNode × String))
    (h : ∀ p ∈ ep, GoodStr p.2) : GoodStr (convertSubscript ep) := by
  unfold convertSubscript
  refine goodStr_append ?_ (by decide)
  refine goodStr_append ?_ (goodStr_nthElemOmml h 1)
  refine goodStr_append ?_ (by decide)
  refine goodStr_append ?_ (goodStr_nthElemOmml h 0)
  refine goodStr_append ?_ (by decide)
  exact goodStr_append (by decide) goodStr_ctrlPr

theorem goodStr_convertSubSuperscript (ep : List (MNode × String))
    (h : ∀ p ∈ ep, GoodStr p.2) : GoodStr (convertSubSuperscript ep) := by
  unfold convertSubSuperscript
  refine goodStr_append ?_ (by decide)
  refine goodStr_append ?_ (goodStr_nthElemOmml h 2)
  refine goodStr_append ?_ (by decide)
  refine goodStr_append ?_ (goodStr_nthElemOmml h 1)
  refine goodStr_append ?_ (by decide)
  refine goodStr_append ?_ (goodStr_nthElemOmml h 0)
  refine goodStr_append ?_ (by decide)
  exact goodStr_append (by decide) goodStr_ctrlPr

theorem goodStr_convertSqrt (kids : List String) (h : ∀ s ∈ kids, GoodStr s) :
    GoodStr (convertSqrt kids) := by
  unfold convertSqrt
  refine goodStr_append ?_ (by decide)
  refine goodStr_append ?_ (goodStr_join h)
  refine goodStr_append ?_ (by decide)
  exact goodStr_append (by decide) goodStr_ctrlPr

theorem goodStr_convertRoot (ep : List (MNode × String))
    (h : ∀ p ∈ ep, GoodStr p.2) : GoodStr (convertRoot ep) := by
  unfold convertRoot
  refine goodStr_append ?_ (by decide)
  refine goodStr_append ?_ (goodStr_nthElemOmml h 0)
  refine goodStr_append ?_ (by decide)
  refine goodStr_append ?_ (goodStr_nthElemOmml h 1)
  refine goodStr_append ?_ (by decide)
  exact goodStr_append (by decide) goodStr_ctrlPr

theorem goodStr_convertOver (attrs : List (String × String)) (children : List MNode)
    (kids : List String) (h : ∀ s ∈ kids, GoodStr s) :
    GoodStr (convertOver attrs children kids) := by
  unfold convertOver
  dsimp only
  have hep := @goodKids_elemKids children _ h
  split
  · refine goodStr_append ?_ (by decide)
    refine goodStr_append ?_ (goodStr_nthElemOmml hep 0)
    refine goodStr_append ?_ (by decide)
    refine goodStr_append ?_ goodStr_ctrlPr
    refine goodStr_append ?_ (by decide)
    exact goodStr_append (by decide) (goodStr_escapeXml _)
  · refine goodStr_append ?_ (by decide)
    refine goodStr_append ?_ (goodStr_opt_snd hep 1)
    refine goodStr_append ?_ (by decide)
    refine goodStr_append ?_ (goodStr_nthElemOmml hep 0)
    refine goodStr_append ?_ (by decide)
    exact goodStr_append (by decide) goodStr_ctrlPr

theorem goodStr_convertUnder (ep : List (MNode × String))
    (h : ∀ p ∈ ep, GoodStr p.2) : GoodStr (convertUnder ep) := by
  unfold convertUnder
  refine goodStr_append ?_ (by decide)
  refine goodStr_append ?_ (goodStr_nthElemOmml h 1)
  refine goodStr_append ?_ (by decide)
  refine goodStr_append ?_ (goodStr_nthElemOmml h 0)
  refine goodStr_append ?_ (by decide)
  exact goodStr_append (by decide) goodStr_ctrlPr

theorem goodStr_convertUnderOver (ep : List (MNode × String))
    (h : ∀ p ∈ ep, GoodStr p.2) : GoodStr (convertUnderOver ep) := by
  unfold convertUnderOver
  dsimp only
  split
  · refine goodStr_append ?_ (by decide)
    refine goodStr_append ?_ (goodStr_opt_snd h 2)
    refine goodStr_append ?_ (by decide)
    refine goodStr_append ?_ (goodStr_opt_snd h 1)
    refine goodStr_append ?_ (by decide)
    refine goodStr_append ?_ goodStr_ctrlPr
    refine goodStr_append ?_ (by decide)
    exact goodStr_append (by decide) (goodStr_escapeXml _)
  · refine goodStr_append ?_ (by decide)
    refine goodStr_append ?_ (goodStr_opt_snd h 1)
    refine goodStr_append ?_ (by decide)
    refine goodStr_append ?_ ?inner
    case inner =>
      refine goodStr_append ?_ (by decide)
      refine goodStr_append ?_ (goodStr_opt_snd h 2)
      refine goodStr_append ?_ (by decide)
      refine goodStr_append ?_ (goodStr_opt_snd h 0)
      refine goodStr_append ?_ (by decide)
      exact goodStr_append (by decide) goodStr_ctrlPr
    exact goodStr_append (goodStr_append (by decide) goodStr_ctrlPr) (by decide)

theorem goodStr_filtered_snd {children : List MNode} {kids : List String}
    (h : ∀ s ∈ kids, GoodStr s) (f : MNode × String → Bool) :
    ∀ p ∈ (children.zip kids).filter f, GoodStr p.2 := by
  intro p hp
  exact h p.2 (List.of_mem_zip (List.mem_of_mem_filter hp)).2

theorem goodStr_convertTableRow (children : List MNode) (kids : List String)
    (h : ∀ s ∈ kids, GoodStr s) : GoodStr (convertTableRow children kids) := by
  unfold convertTableRow
  dsimp only
  refine goodStr_append ?_ (by decide)
  refine goodStr_append (by decide) ?_
  apply goodStr_join
  intro s hs
  obtain ⟨p, hp, rfl⟩ := List.mem_map.mp hs
  exact goodStr_append (goodStr_append (by decide) (goodStr_filtered_snd h _ p hp))
    (by decide)

theorem goodStr_convertTable (children : List MNode) (kids : List String)
    (h : ∀ s ∈ kids, GoodStr s) : GoodStr (convertTable children kids) := by
  unfold convertTable
  dsimp only
  refine goodStr_append ?_ (by decide)
  refine goodStr_append ?_ ?rows
  case rows =>
    apply goodStr_join
    intro s hs
    obtain ⟨p, hp, rfl⟩ := List.mem_map.mp hs
    exact goodStr_filtered_snd h _ p hp
  refine goodStr_append ?_ (by decide)
  refine goodStr_append ?_ goodStr_ctrlPr
  refine goodStr_append ?_ (by decide)
  exact goodStr_append (by decide) (goodStr_natRepr _)

theorem goodStr_convertFenced (attrs : List (String × String)) (kids : List String)
    (h : ∀ s ∈ kids, GoodStr s) : GoodStr (convertFenced attrs kids) := by
  unfold convertFenced
  dsimp only
  refine goodStr_append ?_ (by decide)
  refine goodStr_append ?_ (goodStr_join h)
  refine goodStr_append ?_ (by decide)
  refine goodStr_append ?_ goodStr_ctrlPr
  refine goodStr_append ?_ (by decide)
  refine goodStr_append ?_ (goodStr_escapeXml _)
  refine goodStr_append ?_ (by decide)
  exact goodStr_append (by decide) (goodStr_escapeXml _)

theorem goodStr_convertEnclose (kids : List String) (h : ∀ s ∈ kids, GoodStr s) :
    GoodStr (convertEnclose kids) := by
  unfold convertEnclose
  refine goodStr_append ?_ (by decide)
  refine goodStr_append ?_ (goodStr_join h)
  refine goodStr_append ?_ (by decide)
  exact goodStr_append (by decide) goodStr_ctrlPr

theorem goodStr_convertElement (tag : String) (attrs : List (String × String))
    (children : List MNode) (kids : List String) (h : ∀ s ∈ kids, GoodStr s) :
    GoodStr (convertElement tag attrs children kids) := by
  unfold convertElement
  split
  · exact goodStr_join h
  · exact goodStr_join h
  · exact goodStr_join h
  · exact goodStr_join h
  · exact goodStr_join h
  · exact goodStr_join h
  · exact goodStr_empty
  · exact goodStr_empty
  · exact goodStr_convertToken children
  · exact goodStr_convertToken children
  · exact goodStr_convertToken children
  · exact goodStr_convertToken children
  · exact goodStr_convertToken children
  · exact goodStr_convertFraction attrs _ (goodKids_elemKids h)
  · exact goodStr_convertSuperscript _ (goodKids_elemKids h)
  · exact goodStr_convertSubscript _ (goodKids_elemKids h)
  · exact goodStr_convertSubSuperscript _ (goodKids_elemKids h)
  · exact goodStr_convertSqrt kids h
  · exact goodStr_convertRoot _ (goodKids_elemKids h)
  · exact goodStr_convertOver attrs children kids h
  · exact goodStr_convertUnder _ (goodKids_elemKids h)
  · exact goodStr_convertUnderOver _ (goodKids_elemKids h)
  · exact goodStr_convertTable children kids h
  · exact goodStr_convertTableRow children kids h
  · exact goodStr_convertTableRow children kids h
  · exact goodStr_join h
  · exact goodStr_convertFenced attrs kids h
  · exact goodStr_convertEnclose kids h
  · exact goodStr_empty
  · exact goodStr_join h
  · exact goodStr_join h

mutual

theorem goodStr_convertNode : ∀ n : MNode, GoodStr (convertNode n)
  | .text s => by
    unfold convertNode
    dsimp only
    split
    · exact goodStr_empty
    · exact goodStr_makeRun _
  | .comment s => by
    unfold convertNode
    exact goodStr_empty
  | .element tag attrs children => by
    unfold convertNode
    exact goodStr_convertElement _ attrs children _ (goodStr_convertList children)

theorem goodStr_convertList : ∀ l : List MNode, ∀ s ∈ convertList l, GoodStr s
  | [] => by
    intro s hs
    simp [convertList] at hs
  | n :: ns => by
    intro s hs
    unfold convertList at hs
    rcases List.mem_cons.mp hs with rfl | hmem
    · exact goodStr_convertNode n
    · exact goodStr_convertList ns s hmem

end


/-- Cursor monotonicity and the run-font invariant for the LaTeX parser,
simultaneously for the three mutually recursive functions, by induction on
the fuel: a successful parse never moves the cursor backwards, and its
output satisfies `GoodStr` whenever the incoming accumulator does. -/
theorem parser_mono_good : ∀ fuel : Nat,
    (∀ cs pos acc r pos', parseF cs fuel pos acc = some (r, pos') →
      pos ≤ pos' ∧ (GoodStr acc → GoodStr r)) ∧
    (∀ cs pos r pos', parseGroupF cs fuel pos = some (r, pos') →
      pos ≤ pos' ∧ GoodStr r) ∧
    (∀ cs cmd pos r pos', handleCommandF cs fuel cmd pos = some (r, pos') →
      pos ≤ pos' ∧ GoodStr r) := by
  intro fuel
  induction fuel with
  | zero =>
    refine ⟨?_, ?_, ?_⟩
    · intro cs pos acc r pos' hp; exact Option.noConfusion hp
    · intro cs pos r pos' hp; exact Option.noConfusion hp
    · intro cs cmd pos r pos' hp; exact Option.noConfusion hp
  | succ f ih =>
    obtain ⟨ihP, ihG, ihH⟩ := ih
    refine ⟨?_, ?_, ?_⟩
    · -- parseF
      intro cs pos acc r pos' hp
      simp only [parseF] at hp
      split at hp
      · -- cs[pos]? = none
        simp only [Option.some.injEq, Prod.mk.injEq] at hp
        obtain ⟨rfl, rfl⟩ := hp
        exact ⟨le_refl _, id⟩
      · -- cs[pos]? = some ch
        split at hp
        · -- ch = '}'
          simp only [Option.some.injEq, Prod.mk.injEq] at hp
          obtain ⟨rfl, rfl⟩ := hp
          exact ⟨le_refl _, id⟩
        · split at hp
          · -- ch = '{'
            split at hp
            · exact Option.noConfusion hp
            · rename_i inner pos₁ heq
              obtain ⟨hm1, hg1⟩ := ihP _ _ _ _ _ heq
              cases hcs2 : cs[pos₁]? with
              | none =>
                simp only [hcs2] at hp
                obtain ⟨hm2, hg2⟩ := ihP _ _ _ _ _ hp
                exact ⟨by omega, fun hacc => hg2 (goodStr_append hacc (hg1 goodStr_empty))⟩
              | some c =>
                simp only [hcs2] at hp
                by_cases hc : c = '}'
                · rw [if_pos hc] at hp
                  obtain ⟨hm2, hg2⟩ := ihP _ _ _ _ _ hp
                  exact ⟨by omega, fun hacc => hg2 (goodStr_append hacc (hg1 goodStr_empty))⟩
                · rw [if_neg hc] at hp
                  obtain ⟨hm2, hg2⟩ := ihP _ _ _ _ _ hp
                  exact ⟨by omega, fun hacc => hg2 (goodStr_append hacc (hg1 goodStr_empty))⟩
          · split at hp
            · -- ch = '^'
              split at hp
              · exact Option.noConfusion hp
              · rename_i sup pos₁ heq
                split at hp
                · exact Option.noConfusion hp
                · rename_i rest pos₂ heq2
                  obtain ⟨hm1, hg1⟩ := ihG _ _ _ _ heq
                  obtain ⟨hm2, hg2⟩ := ihP _ _ _ _ _ heq2
                  simp only [Option.some.injEq, Prod.mk.injEq] at hp
                  obtain ⟨rfl, rfl⟩ := hp
                  refine ⟨by omega, fun hacc => ?_⟩
                  refine goodStr_append ?_ (hg2 goodStr_empty)
                  refine goodStr_append ?_ (by decide)
                  refine goodStr_append ?_ hg1
                  refine goodStr_append ?_ (by decide)
                  refine goodStr_append ?_ ?base
                  case base =>
                    split
                    · exact goodStr_makeRun _
                    · exact hacc
                  refine goodStr_append ?_ (by decide)
                  exact goodStr_append (by decide) goodStr_ctrlPr
            · split at hp
              · -- ch = '_'
                split at hp
                · exact Option.noConfusion hp
                · rename_i sub pos₁ heq
                  obtain ⟨hm1, hg1⟩ := ihG _ _ _ _ heq
                  split at hp
                  · -- lookahead '^'
                    split at hp
                    · exact Option.noConfusion hp
                    · rename_i sup pos₂ heq2
                      split at hp
                      · exact Option.noConfusion hp
                      · rename_i rest pos₃ heq3
                        obtain ⟨hm2, hg2⟩ := ihG _ _ _ _ heq2
                        obtain ⟨hm3, hg3⟩ := ihP _ _ _ _ _ heq3
                        simp only [Option.some.injEq, Prod.mk.injEq] at hp
                        obtain ⟨rfl, rfl⟩ := hp
                        refine ⟨by omega, fun hacc => ?_⟩
                        refine goodStr_append ?_ (hg3 goodStr_empty)
                        refine goodStr_append ?_ (by decide)
                        refine goodStr_append ?_ hg2
                        refine goodStr_append ?_ (by decide)
                        refine goodStr_append ?_ hg1
                        refine goodStr_append ?_ (by decide)
                        refine goodStr_append ?_ ?base2
                        case base2 =>
                          split
                          · exact goodStr_makeRun _
                          · exact hacc
                        refine goodStr_append ?_ (by decide)
                        exact goodStr_append (by decide) goodStr_ctrlPr
                  · -- plain subscript
                    split at hp
                    · exact Option.noConfusion hp
                    · rename_i rest pos₂ heq2
                      obtain ⟨hm2, hg2⟩ := ihP _ _ _ _ _ heq2
                      simp only [Option.some.injEq, Prod.mk.injEq] at hp
                      obtain ⟨rfl, rfl⟩ := hp
                      refine ⟨by omega, fun hacc => ?_⟩
                      refine goodStr_append ?_ (hg2 goodStr_empty)
                      refine goodStr_append ?_ (by decide)
                      refine goodStr_append ?_ hg1
                      refine goodStr_append ?_ (by decide)
                      refine goodStr_append ?_ ?base3
                      case base3 =>
                        split
                        · exact goodStr_makeRun _
                        · exact hacc
                      refine goodStr_append ?_ (by decide)
                      exact goodStr_append (by decide) goodStr_ctrlPr
              · split at hp
                · -- ch = '\\'
                  split at hp
                  · exact Option.noConfusion hp
                  · rename_i piece pos₂ heq
                    obtain ⟨hm1, hg1⟩ := ihH _ _ _ _ _ heq
                    obtain ⟨hm2, hg2⟩ := ihP _ _ _ _ _ hp
                    have hrc : pos + 1 ≤ (readCommand cs pos).2 := by
                      unfold readCommand
                      dsimp only
                      omega
                    refine ⟨by omega, fun hacc => ?_⟩
                    exact hg2 (goodStr_append hacc hg1)
                · split at hp
                  · -- ch = ' '
                    obtain ⟨hm, hg⟩ := ihP _ _ _ _ _ hp
                    exact ⟨by omega, hg⟩
                  · -- default character
                    obtain ⟨hm, hg⟩ := ihP _ _ _ _ _ hp
                    refine ⟨by omega, fun hacc => ?_⟩
                    exact hg (goodStr_append hacc (goodStr_makeRun _))
    · -- parseGroupF
      intro cs pos r pos' hp
      simp only [parseGroupF] at hp
      split at hp
      · -- '{'
        split at hp
        · exact Option.noConfusion hp
        · rename_i inner pos₁ heq
          obtain ⟨hm1, hg1⟩ := ihP _ _ _ _ _ heq
          cases hcs2 : cs[pos₁]? with
          | none =>
            simp only [hcs2, Option.some.injEq, Prod.mk.injEq] at hp
            obtain ⟨rfl, rfl⟩ := hp
            exact ⟨by omega, hg1 goodStr_empty⟩
          | some c =>
            simp only [hcs2, Option.some.injEq, Prod.mk.injEq] at hp
            by_cases hc : c = '}'
            · rw [if_pos hc] at hp
              obtain ⟨rfl, rfl⟩ := hp
              exact ⟨by omega, hg1 goodStr_empty⟩
            · rw [if_neg hc] at hp
              obtain ⟨rfl, rfl⟩ := hp
              exact ⟨by omega, hg1 goodStr_empty⟩
      · -- '\\'
        obtain ⟨hm, hg⟩ := ihH _ _ _ _ _ hp
        have hrc : pos + 1 ≤ (readCommand cs pos).2 := by
          unfold readCommand
          dsimp only
          omega
        exact ⟨by omega, hg⟩
      · -- single character
        simp only [Option.some.injEq, Prod.mk.injEq] at hp
        obtain ⟨rfl, rfl⟩ := hp
        exact ⟨by omega, goodStr_makeRun _⟩
      · -- end of input
        simp only [Option.some.injEq, Prod.mk.injEq] at hp
        obtain ⟨rfl, rfl⟩ := hp
        exact ⟨le_refl _, goodStr_empty⟩
    · -- handleCommandF
      intro cs cmd pos r pos' hp
      simp only [handleCommandF] at hp
      split at hp
      · -- symbol-table arm
        simp only [Option.some.injEq, Prod.mk.injEq] at hp
        obtain ⟨rfl, rfl⟩ := hp
        exact ⟨le_refl _, goodStr_makeRun _⟩
      split at hp
      all_goals try
        (simp only [Option.some.injEq, Prod.mk.injEq] at hp
         obtain ⟨rfl, rfl⟩ := hp
         exact ⟨le_refl _, goodStr_makeRun _⟩)
      all_goals try (exact ihG _ _ _ _ hp)
      · -- frac
        split at hp
        · exact Option.noConfusion hp
        · rename_i num pos₁ heq1
          split at hp
          · exact Option.noConfusion hp
          · rename_i den pos₂ heq2
            obtain ⟨hm1, hg1⟩ := ihG _ _ _ _ heq1
            obtain ⟨hm2, hg2⟩ := ihG _ _ _ _ heq2
            simp only [Option.some.injEq, Prod.mk.injEq] at hp
            obtain ⟨rfl, rfl⟩ := hp
            refine ⟨by omega, ?_⟩
            refine goodStr_append ?_ (by decide)
            refine goodStr_append ?_ hg2
            refine goodStr_append ?_ (by decide)
            refine goodStr_append ?_ hg1
            refine goodStr_append ?_ (by decide)
            exact goodStr_append (by decide) goodStr_ctrlPr
      · -- sqrt
        split at hp
        · exact Option.noConfusion hp
        · rename_i content pos₁ heq1
          obtain ⟨hm1, hg1⟩ := ihG _ _ _ _ heq1
          simp only [Option.some.injEq, Prod.mk.injEq] at hp
          obtain ⟨rfl, rfl⟩ := hp
          refine ⟨by omega, ?_⟩
          refine goodStr_append ?_ (by decide)
          refine goodStr_append ?_ hg1
          refine goodStr_append ?_ (by decide)
          exact goodStr_append (by decide) goodStr_ctrlPr
      · -- left
        split at hp
        · simp only [Option.some.injEq, Prod.mk.injEq] at hp
          obtain ⟨rfl, rfl⟩ := hp
          exact ⟨by omega, goodStr_makeRun _⟩
        · simp only [Option.some.injEq, Prod.mk.injEq] at hp
          obtain ⟨rfl, rfl⟩ := hp
          exact ⟨le_refl _, goodStr_empty⟩
      · -- right
        split at hp
        · simp only [Option.some.injEq, Prod.mk.injEq] at hp
          obtain ⟨rfl, rfl⟩ := hp
          exact ⟨by omega, goodStr_makeRun _⟩
        · simp only [Option.some.injEq, Prod.mk.injEq] at hp
          obtain ⟨rfl, rfl⟩ := hp
          exact ⟨le_refl _, goodStr_empty⟩
      all_goals
        (split at hp
         · exact Option.noConfusion hp
         · rename_i content pos₁ heq1
           obtain ⟨hm1, hg1⟩ := ihG _ _ _ _ heq1
           simp only [Option.some.injEq, Prod.mk.injEq] at hp
           obtain ⟨rfl, rfl⟩ := hp
           refine ⟨by omega, ?_⟩
           refine goodStr_append ?_ (by decide)
           refine goodStr_append ?_ hg1
           refine goodStr_append ?_ (by decide)
           exact goodStr_append (by decide) goodStr_ctrlPr)

/-- Fuel adequacy for the LaTeX parser: with fuel exceeding three times the
remaining input (plus a constant), none of the three mutually recursive
functions ever runs out.  This is the formal counterpart of termination of
the source's unbounded `while` loop: every iteration either strictly
advances the cursor or leaves the current frame, so the recursion depth is
linearly bounded by the input length. -/
theorem parser_fuel_sufficient : ∀ fuel : Nat, ∀ cs : List Char,
    (∀ pos acc, 3 * (cs.length - pos) + 1 ≤ fuel →
      (parseF cs fuel pos acc).isSome = true) ∧
    (∀ pos, 3 * (cs.length - pos) + 1 ≤ fuel →
      (parseGroupF cs fuel pos).isSome = true) ∧
    (∀ cmd pos, 3 * (cs.length - pos) + 2 ≤ fuel →
      (handleCommandF cs fuel cmd pos).isSome = true) := by
  intro fuel
  induction fuel with
  | zero =>
    refine fun cs => ⟨?_, ?_, ?_⟩
    · intro pos acc hb; omega
    · intro pos hb; omega
    · intro cmd pos hb; omega
  | succ f ih =>
    intro cs
    obtain ⟨ihP, ihG, ihH⟩ := ih cs
    have monoP := fun {pos acc r pos'} h =>
      ((parser_mono_good f).1 cs pos acc r pos' h).1
    have monoG := fun {pos r pos'} h =>
      ((parser_mono_good f).2.1 cs pos r pos' h).1
    have monoH := fun {cmd pos r pos'} h =>
      ((parser_mono_good f).2.2 cs cmd pos r pos' h).1
    refine ⟨?_, ?_, ?_⟩
    · -- parseF
      intro pos acc hb
      simp only [parseF]
      cases hcs : cs[pos]? with
      | none => rfl
      | some ch =>
        dsimp only
        have hpos : pos < cs.length := (List.getElem?_eq_some.mp hcs).1
        by_cases h1 : ch = '}'
        · simp [h1]
        rw [if_neg h1]
        by_cases h2 : ch = '{'
        · rw [if_pos h2]
          have hin := ihP (pos + 1) "" (by omega)
          split
          · rename_i heq
            rw [heq] at hin
            simp at hin
          · rename_i inner pos₁ heq
            have hm1 : pos + 1 ≤ pos₁ := monoP heq
            split
            · rename_i c heq2
              split
              · exact ihP (pos₁ + 1) (acc ++ inner) (by omega)
              · exact ihP pos₁ (acc ++ inner) (by omega)
            · exact ihP pos₁ (acc ++ inner) (by omega)
        rw [if_neg h2]
        by_cases h3 : ch = '^'
        · rw [if_pos h3]
          have hin := ihG (pos + 1) (by omega)
          split
          · rename_i heq
            rw [heq] at hin
            simp at hin
          · rename_i sup pos₁ heq
            have hm1 : pos + 1 ≤ pos₁ := monoG heq
            have hrest := ihP pos₁ "" (by omega)
            split
            · rename_i heq2
              rw [heq2] at hrest
              simp at hrest
            · rfl
        rw [if_neg h3]
        by_cases h4 : ch = '_'
        · rw [if_pos h4]
          have hin := ihG (pos + 1) (by omega)
          split
          · rename_i heq
            rw [heq] at hin
            simp at hin
          · rename_i sub pos₁ heq
            have hm1 : pos + 1 ≤ pos₁ := monoG heq
            split
            · -- lookahead '^'
              have hin2 := ihG (pos₁ + 1) (by omega)
              split
              · rename_i heq2
                rw [heq2] at hin2
                simp at hin2
              · rename_i sup pos₂ heq2
                have hm2 : pos₁ + 1 ≤ pos₂ := monoG heq2
                have hrest := ihP pos₂ "" (by omega)
                split
                · rename_i heq3
                  rw [heq3] at hrest
                  simp at hrest
                · rfl
            · have hrest := ihP pos₁ "" (by omega)
              split
              · rename_i heq2
                rw [heq2] at hrest
                simp at hrest
              · rfl
        rw [if_neg h4]
        by_cases h5 : ch = '\\'
        · rw [if_pos h5]
          have hsnd : (readCommand cs pos).2 = pos + 1 +
              ((cs.drop (pos + 1)).takeWhile isLatexLetter).length := rfl
          have hhc := ihH (readCommand cs pos).1 (readCommand cs pos).2
            (by rw [hsnd]; omega)
          split
          · rename_i heq2
            rw [heq2] at hhc
            simp at hhc
          · rename_i piece pos₂ heq2
            have hm1 : (readCommand cs pos).2 ≤ pos₂ := monoH heq2
            rw [hsnd] at hm1
            exact ihP pos₂ (acc ++ piece) (by omega)
        rw [if_neg h5]
        by_cases h6 : ch = ' '
        · rw [if_pos h6]
          exact ihP (pos + 1) acc (by omega)
        · rw [if_neg h6]
          exact ihP (pos + 1) (acc ++ makeRun (String.singleton ch)) (by omega)
    · -- parseGroupF
      intro pos hb
      simp only [parseGroupF]
      split
      · -- '{'
        rename_i heq0
        have hpos : pos < cs.length := (List.getElem?_eq_some.mp heq0).1
        have hin := ihP (pos + 1) "" (by omega)
        split
        · rename_i heq
          rw [heq] at hin
          simp at hin
        · rfl
      · -- '\\'
        rename_i heq0
        have hpos : pos < cs.length := (List.getElem?_eq_some.mp heq0).1
        have hsnd : (readCommand cs pos).2 = pos + 1 +
            ((cs.drop (pos + 1)).takeWhile isLatexLetter).length := rfl
        have hhc := ihH (readCommand cs pos).1 (readCommand cs pos).2
          (by rw [hsnd]; omega)
        cases heq2 : handleCommandF cs f (readCommand cs pos).1 (readCommand cs pos).2 with
        | none =>
          rw [heq2] at hhc
          simp at hhc
        | some v => rfl
      · -- plain character
        rfl
      · -- end of input
        rfl
    · -- handleCommandF
      intro cmd pos hb
      simp only [handleCommandF]
      cases hsym : latexCommandSymbols.lookup cmd with
      | some sym => rfl
      | none =>
        dsimp only
        split
        · -- frac
          have hg1 := ihG pos (by omega)
          split
          · rename_i heq1
            rw [heq1] at hg1
            simp at hg1
          · rename_i num pos₁ heq1
            have hm1 : pos ≤ pos₁ := monoG heq1
            have hg2 := ihG pos₁ (by omega)
            split
            · rename_i heq2
              rw [heq2] at hg2
              simp at hg2
            · rfl
        all_goals try (exact ihG pos (by omega))
        all_goals try rfl
        all_goals try (split <;> rfl)
        all_goals
          (have hg1 := ihG pos (by omega)
           split
           · rename_i heq1
             rw [heq1] at hg1
             simp at hg1
           · rfl)

/-!
## Supporting lemmas for the claim theorems
-/

theorem str_foldl_append (xs : List String) (acc : String) :
    xs.foldl (fun r s => r ++ s) acc = acc ++ xs.foldl (fun r s => r ++ s) "" := by
  induction xs generalizing acc with
  | nil => simp [List.foldl]
  | cons x xs ih =>
    simp only [List.foldl]
    rw [ih (acc ++ x), ih ("" ++ x), String.empty_append, String.append_assoc]

theorem str_join_cons (x : String) (xs : List String) :
    String.join (x :: xs) = x ++ String.join xs := by
  show List.foldl (fun r s => r ++ s) "" (x :: xs) = _
  simp only [List.foldl]
  rw [str_foldl_append, String.empty_append]
  rfl

theorem prefix_data_append {p : List Char} {x y : String} (h : p <+: x.data) :
    p <+: (x ++ y).data := by
  rw [String.data_append]
  exact h.trans (List.prefix_append _ _)

theorem prefix_data_extract {p : List Char} {x y : String}
    (h : p <+: (x ++ y).data) (hl : p.length ≤ x.data.length) : p <+: x.data := by
  rw [String.data_append] at h
  exact prefix_of_prefix_append h hl

theorem goodStr_latexToOmmlDirect (latex : String) : GoodStr (latexToOmmlDirect latex) := by
  unfold latexToOmmlDirect
  dsimp only
  split
  · rename_i r pos' heq
    exact ((parser_mono_good _).1 _ _ _ _ _ heq).2 goodStr_empty
  · exact goodStr_empty

theorem convertNode_mover (attrs : List (String × String)) (children : List MNode) :
    convertNode (.element "mover" attrs children) =
      convertOver attrs children (convertList children) := by
  simp only [convertNode]
  rfl

set_option maxHeartbeats 4000000 in
theorem buildListItems_cons (numId : Nat) (content : List Inline)
    (nested : Option ListBlock) (rest : List (List Inline × Option ListBlock))
    (ctx : Ctx) (level : Nat) :
    buildListItems numId ((content, nested) :: rest) ctx level =
      ("<w:p><w:pPr><w:pStyle w:val=\"ListParagraph\"/><w:numPr><w:ilvl w:val=\"" ++
        toString level ++ "\"/><w:numId w:val=\"" ++ toString numId ++
        "\"/></w:numPr></w:pPr>" ++ buildInlineRuns content ctx ++ "</w:p>" ++
      (match nested with
       | some nl => buildList nl ctx (level + 1)
       | none => "")) ++
      buildListItems numId rest ctx level := by
  rw [buildListItems.eq_def]

theorem buildListItems_nil (numId : Nat) (ctx : Ctx) (level : Nat) :
    buildListItems numId [] ctx level = "" := by
  rw [buildListItems.eq_def]

theorem buildList_mk (ordered : Bool) (items : List (List Inline × Option ListBlock))
    (ctx : Ctx) (level : Nat) :
    buildList (.mk ordered items) ctx level =
      buildListItems (if ordered then 2 else 1) items ctx level := by
  simp only [buildList.eq_def]

theorem buildListItems_spec (ordered : Bool)
    (items : List (List Inline × Option ListBlock)) (ctx : Ctx) (level : Nat) :
    buildListItems (if ordered then 2 else 1) items ctx level =
      String.join (items.map (fun item =>
        specListItemParagraph ordered item.1 ctx level ++
          (match item.2 with
           | some nl => buildList nl ctx (level + 1)
           | none => ""))) := by
  induction items with
  | nil => rw [buildListItems_nil]; rfl
  | cons item rest ih =>
    obtain ⟨content, nested⟩ := item
    rw [buildListItems_cons, ih, List.map_cons, str_join_cons]
    simp only [specListItemParagraph, String.append_assoc]

/-!
## Claim theorems
-/

/-- C1: for every block sequence and options, the archive produced by
`buildDocx` consists of exactly the content-types manifest, root
relationships, document body, styles, settings, font table, document
relationships and the two metadata parts — and, contrary to the claim, it
contains no `word/numbering.xml` part at all (the repository's own tests
require one). -/
theorem c1_buildDocx_parts_without_numbering :
    ∀ (blocks : List Block) (options : BuildOptions)
      (pm : String → Option MNode) (now : String),
      (buildDocx blocks options pm now).map Prod.fst =
        ["[Content_Types].xml", "_rels/.rels", "word/document.xml",
         "word/styles.xml", "word/settings.xml", "word/fontTable.xml",
         "word/_rels/document.xml.rels", "docProps/app.xml",
         "docProps/core.xml"] ∧
      "word/numbering.xml" ∉ (buildDocx blocks options pm now).map Prod.fst := by
  intro blocks options pm now
  have hmap : (buildDocx blocks options pm now).map Prod.fst =
      ["[Content_Types].xml", "_rels/.rels", "word/document.xml",
       "word/styles.xml", "word/settings.xml", "word/fontTable.xml",
       "word/_rels/document.xml.rels", "docProps/app.xml",
       "docProps/core.xml"] := rfl
  refine ⟨hmap, ?_⟩
  rw [hmap]
  decide

/-- C2: `escapeXml` does not strip XML-illegal control characters — a NUL
(0x00) and a DEL (0x7F) pass through unchanged, contrary to the claim and
to the repository's own tests, which expect `abc\x00def ↦ abcdef`. -/
theorem c2_escapeXml_keeps_control_characters :
    escapeXml "abc\u0000def" = "abc\u0000def" ∧
    (Char.ofNat 0) ∈ (escapeXml "abc\u0000def").data ∧
    escapeXml "abc\u007Fdef" = "abc\u007Fdef" :=
  ⟨rfl, by decide, rfl⟩

/-- C3: `escapeXml` is not total over nullable input — on `null` or
`undefined` the member access `str.replace` raises a `TypeError` (modelled
as `Except.error`) instead of returning the empty string expected by the
claim and by the repository's tests. -/
theorem c3_escapeXml_null_throws :
    escapeXmlNullable none =
      Except.error "TypeError: Cannot read properties of null (reading replace)" ∧
    ∀ s : String, escapeXmlNullable (some s) = Except.ok (escapeXml s) :=
  ⟨rfl, fun _ => rfl⟩

/-- C4: whenever XML parsing fails or yields no `math`/root element
(modelled by the abstract parse outcome `none`), `mathmlToOmml` returns
exactly the fallback fragment `<m:oMath><m:r><m:t>E</m:t></m:r></m:oMath>`
with `E` the XML-escaped input; the function is total by construction, so
it never throws. -/
theorem c4_mathml_parse_failure_fallback :
    ∀ input : String, mathmlToOmml none input =
      "<m:oMath><m:r><m:t>" ++ escapeXml input ++ "</m:t></m:r></m:oMath>" :=
  fun _ => rfl

/-- C5 (counterexample): the claim fails as stated — on the MathML
parse-failure fallback, the emitted `<m:r>` run (starting at offset 9 of
the output) is not followed by the Cambria Math font directive, so not
every run of the Transpiler carries the math font. -/
theorem c5_counterexample_fallback_run_without_font :
    ¬ RunsOk (mathmlToOmml none "x") ∧
    runPat <+: (mathmlToOmml none "x").data.drop 9 := by
  refine ⟨by decide, by decide⟩

/-- C5 (amended): every `<m:r>` run emitted by the Math Transpiler on the
successful MathML path and on the LaTeX path (including the LaTeX
fallbacks) is immediately followed by the Cambria Math font directive;
only the MathML parse-failure fallback run lacks it. -/
theorem c5_runs_carry_cambria_font :
    (∀ (el : MNode) (input : String), RunsOk (mathmlToOmml (some el) input)) ∧
    (∀ (latex : String) (display : Bool), RunsOk (latexToOmml latex display)) := by
  constructor
  · intro el input
    have hg : GoodStr (mathmlToOmml (some el) input) := by
      unfold mathmlToOmml
      dsimp only
      split
      · exact goodStr_append (goodStr_append (by decide : GoodStr "<m:oMathPara><m:oMath>")
          (goodStr_convertNode el)) (by decide)
      · exact goodStr_append (goodStr_append (by decide : GoodStr "<m:oMath>")
          (goodStr_convertNode el)) (by decide)
    exact hg.1
  · intro latex display
    have hg : GoodStr (latexToOmml latex display) := by
      unfold latexToOmml
      dsimp only
      split
      · exact goodStr_append (goodStr_append (by decide : GoodStr "<m:oMathPara><m:oMath>")
          (goodStr_latexToOmmlDirect latex)) (by decide)
      · exact goodStr_append (goodStr_append (by decide : GoodStr "<m:oMath>")
          (goodStr_latexToOmmlDirect latex)) (by decide)
    exact hg.1

/-- C6: in the LaTeX parse loop, a `^` (and likewise a `_`) operator takes
as its base the entire output accumulated so far in the current parse
frame — the whole accumulator `acc` is wrapped as the `<m:e>` base, not
just the last atom — covering the `^` superscript, the plain-`_`
subscript (`<m:sSub>`, when no `^` follows the subscript group), and the
`_` group immediately followed by `^`, which produces a single combined
`<m:sSubSup>` construct holding both the subscript and the superscript. -/
theorem c6_script_base_is_whole_accumulator :
    (∀ (cs : List Char) (fuel pos : Nat) (acc sup rest : String) (pos₁ pos' : Nat),
      cs[pos]? = some '^' →
      parseGroupF cs fuel (pos + 1) = some (sup, pos₁) →
      parseF cs fuel pos₁ "" = some (rest, pos') →
      parseF cs (fuel + 1) pos acc =
        some ("<m:sSup><m:sSupPr>" ++ ctrlPr ++ "</m:sSupPr><m:e>" ++
          (if acc = "" then makeRun "" else acc) ++ "</m:e><m:sup>" ++ sup ++
          "</m:sup></m:sSup>" ++ rest, pos')) ∧
    (∀ (cs : List Char) (fuel pos : Nat) (acc sub sup rest : String)
       (pos₁ pos₂ pos₃ : Nat),
      cs[pos]? = some '_' →
      parseGroupF cs fuel (pos + 1) = some (sub, pos₁) →
      cs[pos₁]? = some '^' →
      parseGroupF cs fuel (pos₁ + 1) = some (sup, pos₂) →
      parseF cs fuel pos₂ "" = some (rest, pos₃) →
      parseF cs (fuel + 1) pos acc =
        some ("<m:sSubSup><m:sSubSupPr>" ++ ctrlPr ++ "</m:sSubSupPr><m:e>" ++
          (if acc = "" then makeRun "" else acc) ++ "</m:e><m:sub>" ++ sub ++
          "</m:sub><m:sup>" ++ sup ++ "</m:sup></m:sSubSup>" ++ rest, pos₃)) ∧
    (∀ (cs : List Char) (fuel pos : Nat) (acc sub rest : String) (pos₁ pos₂ : Nat),
      cs[pos]? = some '_' →
      parseGroupF cs fuel (pos + 1) = some (sub, pos₁) →
      cs[pos₁]? ≠ some '^' →
      parseF cs fuel pos₁ "" = some (rest, pos₂) →
      parseF cs (fuel + 1) pos acc =
        some ("<m:sSub><m:sSubPr>" ++ ctrlPr ++ "</m:sSubPr><m:e>" ++
          (if acc = "" then makeRun "" else acc) ++ "</m:e><m:sub>" ++ sub ++
          "</m:sub></m:sSub>" ++ rest, pos₂)) := by
  refine ⟨?_, ?_, ?_⟩
  · intro cs fuel pos acc sup rest pos₁ pos' hch hgroup hrest
    simp only [parseF, hch]
    rw [if_neg (by decide : ¬('^' = '}')), if_neg (by decide : ¬('^' = '{'))]
    rw [if_true]
    simp only [hgroup, hrest]
  · intro cs fuel pos acc sub sup rest pos₁ pos₂ pos₃ hch hgroup hla hgroup2 hrest
    simp only [parseF, hch]
    rw [if_neg (by decide : ¬('_' = '}')), if_neg (by decide : ¬('_' = '{')),
      if_neg (by decide : ¬('_' = '^'))]
    rw [if_true]
    simp only [hgroup]
    rw [if_pos (show (cs[pos₁]? == some '^') = true by rw [hla]; rfl)]
    simp only [hgroup2, hrest]
  · intro cs fuel pos acc sub rest pos₁ pos₂ hch hgroup hla hrest
    simp only [parseF, hch]
    rw [if_neg (by decide : ¬('_' = '}')), if_neg (by decide : ¬('_' = '{')),
      if_neg (by decide : ¬('_' = '^'))]
    rw [if_true]
    simp only [hgroup]
    rw [if_neg (fun hb => hla (eq_of_beq hb))]
    simp only [hrest]

/-- Witness for C6: all three parts instantiated on concrete inputs —
`"^2"` with accumulator `"BASE"` yields an `<m:sSup>` whose base is the
whole accumulator, `"_i^2"` yields one combined `<m:sSubSup>`, and `"_i"`
(no following `^`) yields a plain `<m:sSub>` whose base is again the
whole accumulator. -/
theorem c6_script_base_is_whole_accumulator_witness :
    ("^2".data[0]? = some '^' ∧
     parseGroupF "^2".data 7 1 = some (makeRun "2", 2) ∧
     parseF "^2".data 7 2 "" = some ("", 2) ∧
     parseF "^2".data 8 0 "BASE" =
       some ("<m:sSup><m:sSupPr>" ++ ctrlPr ++ "</m:sSupPr><m:e>" ++
         (if ("BASE" : String) = "" then makeRun "" else "BASE") ++ "</m:e><m:sup>" ++
         makeRun "2" ++ "</m:sup></m:sSup>" ++ "", 2)) ∧
    ("_i^2".data[0]? = some '_' ∧
     parseGroupF "_i^2".data 7 1 = some (makeRun "i", 2) ∧
     "_i^2".data[2]? = some '^' ∧
     parseGroupF "_i^2".data 7 3 = some (makeRun "2", 4) ∧
     parseF "_i^2".data 7 4 "" = some ("", 4) ∧
     parseF "_i^2".data 8 0 "BASE" =
       some ("<m:sSubSup><m:sSubSupPr>" ++ ctrlPr ++ "</m:sSubSupPr><m:e>" ++
         (if ("BASE" : String) = "" then makeRun "" else "BASE") ++ "</m:e><m:sub>" ++
         makeRun "i" ++ "</m:sub><m:sup>" ++ makeRun "2" ++
         "</m:sup></m:sSubSup>" ++ "", 4)) ∧
    ("_i".data[0]? = some '_' ∧
     parseGroupF "_i".data 7 1 = some (makeRun "i", 2) ∧
     "_i".data[2]? ≠ some '^' ∧
     parseF "_i".data 7 2 "" = some ("", 2) ∧
     parseF "_i".data 8 0 "BASE" =
       some ("<m:sSub><m:sSubPr>" ++ ctrlPr ++ "</m:sSubPr><m:e>" ++
         (if ("BASE" : String) = "" then makeRun "" else "BASE") ++ "</m:e><m:sub>" ++
         makeRun "i" ++ "</m:sub></m:sSub>" ++ "", 2)) :=
  ⟨⟨rfl, rfl, rfl,
    c6_script_base_is_whole_accumulator.1 "^2".data 7 0 "BASE" (makeRun "2") "" 2 2
      rfl rfl rfl⟩,
   ⟨rfl, rfl, rfl, rfl, rfl,
    c6_script_base_is_whole_accumulator.2.1 "_i^2".data 7 0 "BASE" (makeRun "i")
      (makeRun "2") "" 2 4 4 rfl rfl rfl rfl rfl⟩,
   ⟨rfl, rfl, by decide, rfl,
    c6_script_base_is_whole_accumulator.2.2 "_i".data 7 0 "BASE" (makeRun "i") "" 2 2
      rfl rfl (by decide) rfl⟩⟩

/-- `convertNode` on a `mover` element, written as one conditional: the
accent construct when the `accent` attribute is `"true"` or the trimmed
over-script text is a known accent, the upper-limit construct otherwise
(pure unfolding of `convertOver`). -/
theorem convertNode_mover_ite (attrs : List (String × String))
    (children : List MNode) :
    convertNode (.element "mover" attrs children) =
      (if (attrs.lookup "accent" == some "true" ||
            KNOWN_ACCENTS.contains (moverOverText children)) then
        "<m:acc><m:accPr><m:chr m:val=\"" ++
          escapeXml ((ACCENT_MAP.lookup (moverOverText children)).getD
            (moverOverText children)) ++ "\"/>" ++ ctrlPr ++ "</m:accPr><m:e>" ++
          nthElemOmml (elemKids children (convertList children)) 0 ++
          "</m:e></m:acc>"
      else
        "<m:limUpp><m:limUppPr>" ++ ctrlPr ++ "</m:limUppPr><m:e>" ++
          nthElemOmml (elemKids children (convertList children)) 0 ++
          "</m:e><m:lim>" ++ moverOverOmml children ++ "</m:lim></m:limUpp>") := by
  rw [convertNode_mover]
  rfl

/-- C7: a `mover` element converts to an accent construct (`<m:acc>`) if
and only if its `accent` attribute equals `"true"` or the trimmed text of
its over-script child is in the fixed known-accent set; in the accent case
the glyph is mapped through `ACCENT_MAP` to its combining codepoint, and
otherwise the output is the upper-limit construct `<m:limUpp>` holding the
base and the converted over-script. -/
theorem c7_mover_accent_iff :
    ∀ (attrs : List (String × String)) (children : List MNode),
      (("<m:acc".data <+: (convertNode (.element "mover" attrs children)).data) ↔
        (attrs.lookup "accent" = some "true" ∨
          moverOverText children ∈ KNOWN_ACCENTS)) ∧
      (attrs.lookup "accent" = some "true" ∨ moverOverText children ∈ KNOWN_ACCENTS →
        convertNode (.element "mover" attrs children) =
          "<m:acc><m:accPr><m:chr m:val=\"" ++
            escapeXml ((ACCENT_MAP.lookup (moverOverText children)).getD
              (moverOverText children)) ++ "\"/>" ++ ctrlPr ++ "</m:accPr><m:e>" ++
            nthElemOmml (elemKids children (convertList children)) 0 ++
            "</m:e></m:acc>") ∧
      (¬ (attrs.lookup "accent" = some "true" ∨
            moverOverText children ∈ KNOWN_ACCENTS) →
        convertNode (.element "mover" attrs children) =
          "<m:limUpp><m:limUppPr>" ++ ctrlPr ++ "</m:limUppPr><m:e>" ++
            nthElemOmml (elemKids children (convertList children)) 0 ++
            "</m:e><m:lim>" ++ moverOverOmml children ++ "</m:lim></m:limUpp>") := by
  intro attrs children
  have hcond : (attrs.lookup "accent" == some "true" ||
      KNOWN_ACCENTS.contains (moverOverText children)) = true ↔
      (attrs.lookup "accent" = some "true" ∨
        moverOverText children ∈ KNOWN_ACCENTS) := by
    simp
  by_cases hacc : attrs.lookup "accent" = some "true" ∨
      moverOverText children ∈ KNOWN_ACCENTS
  · rw [convertNode_mover_ite, if_pos (hcond.mpr hacc)]
    refine ⟨⟨fun _ => hacc, fun _ => ?_⟩, fun _ => rfl, fun hn => absurd hacc hn⟩
    exact prefix_data_append (prefix_data_append (prefix_data_append
      (prefix_data_append (prefix_data_append (prefix_data_append (by decide))))))
  · rw [convertNode_mover_ite, if_neg (fun hb => hacc (hcond.mp hb))]
    refine ⟨⟨fun hpre => ?_, fun h => absurd h hacc⟩,
      fun h => absurd h hacc, fun _ => rfl⟩
    exfalso
    have e1 := prefix_data_extract hpre
      (by simp only [String.data_append, List.length_append, List.length_cons,
        List.length_nil]; omega)
    have e2 := prefix_data_extract e1
      (by simp only [String.data_append, List.length_append, List.length_cons,
        List.length_nil]; omega)
    have e3 := prefix_data_extract e2
      (by simp only [String.data_append, List.length_append, List.length_cons,
        List.length_nil]; omega)
    have e4 := prefix_data_extract e3
      (by simp only [String.data_append, List.length_append, List.length_cons,
        List.length_nil]; omega)
    have e5 := prefix_data_extract e4
      (by simp only [String.data_append, List.length_append, List.length_cons,
        List.length_nil]; omega)
    have e6 := prefix_data_extract e5
      (by simp only [String.data_append, List.length_append, List.length_cons,
        List.length_nil]; omega)
    exact absurd e6 (by decide)

/-- Witness for C7: a `mover` with `accent="true"` takes the accent
branch, and a `mover` with neither the attribute nor a known-accent
over-script takes the upper-limit branch. -/
theorem c7_mover_accent_iff_witness :
    (convertNode (.element "mover" [("accent", "true")] []) =
      "<m:acc><m:accPr><m:chr m:val=\"" ++
        escapeXml ((ACCENT_MAP.lookup (moverOverText [])).getD (moverOverText [])) ++
        "\"/>" ++ ctrlPr ++ "</m:accPr><m:e>" ++
        nthElemOmml (elemKids [] (convertList [])) 0 ++ "</m:e></m:acc>") ∧
    (convertNode (.element "mover" [] []) =
      "<m:limUpp><m:limUppPr>" ++ ctrlPr ++ "</m:limUppPr><m:e>" ++
        nthElemOmml (elemKids [] (convertList [])) 0 ++ "</m:e><m:lim>" ++
        moverOverOmml [] ++ "</m:lim></m:limUpp>") :=
  ⟨(c7_mover_accent_iff [("accent", "true")] []).2.1 (Or.inl rfl),
   (c7_mover_accent_iff [] []).2.2 (by decide)⟩

/-- C8: `buildList` renders one `ListParagraph` paragraph per item whose
numbering id is `1` for an unordered and `2` for an ordered list and whose
indent level is the nesting depth, and renders each item's nested list one
level deeper — stated as equality with the spec-side rendering. -/
theorem c8_buildList_matches_spec :
    ∀ (ordered : Bool) (items : List (List Inline × Option ListBlock))
      (ctx : Ctx) (level : Nat),
      buildList (.mk ordered items) ctx level =
        String.join (items.map (fun item =>
          specListItemParagraph ordered item.1 ctx level ++
            (match item.2 with
             | some nl => buildList nl ctx (level + 1)
             | none => ""))) := by
  intro ordered items ctx level
  rw [buildList_mk, buildListItems_spec]

/-- C9 (counterexample): the claim fails as stated — two invocations of
`buildDocx` on identical blocks and options but different wall-clock
readings (the `new Date().toISOString()` in `generateCoreProps`) produce
different archives: the core-properties part embeds the timestamp. -/
theorem c9_counterexample_timestamp_in_archive :
    buildDocx [] {} (fun _ => none) "2024-01-01T00:00:00.000Z" ≠
      buildDocx [] {} (fun _ => none) "2025-06-15T12:34:56.000Z" := by
  intro h
  have h8 : (buildDocx [] {} (fun _ => none) "2024-01-01T00:00:00.000Z")[8]? =
      (buildDocx [] {} (fun _ => none) "2025-06-15T12:34:56.000Z")[8]? := by rw [h]
  have h8' : some (("docProps/core.xml",
        generateCoreProps "ChatGPT Response" "2024-01-01T00:00:00.000Z")) =
      some (("docProps/core.xml",
        generateCoreProps "ChatGPT Response" "2025-06-15T12:34:56.000Z")) := h8
  have hcore := ((Prod.mk.injEq _ _ _ _).mp (Option.some.inj h8')).2
  exact absurd hcore (by decide)

/-- C9 (amended): `buildDocx` is deterministic apart from the wall-clock
read in `generateCoreProps`: for identical block sequences and options,
every part other than `docProps/core.xml` is byte-for-byte identical
across invocations, whatever the two clock readings are. -/
theorem c9_deterministic_modulo_timestamp :
    ∀ (blocks : List Block) (options : BuildOptions)
      (pm : String → Option MNode) (now₁ now₂ : String),
      (buildDocx blocks options pm now₁).filter
          (fun p => p.1 != "docProps/core.xml") =
        (buildDocx blocks options pm now₂).filter
          (fun p => p.1 != "docProps/core.xml") := by
  intro blocks options pm now₁ now₂
  rfl

/-- C10: the LaTeX parser terminates on every finite input: with fuel
`3·length + 1`, the fuelled embedding of the parse loop never exhausts its
fuel (every iteration strictly advances the cursor or exits the frame), so
`latexToOmmlDirect` returns the parse result for every input string. -/
theorem c10_latex_parser_total :
    ∀ latex : String, ∃ r pos',
      parseF latex.data (3 * latex.data.length + 1) 0 "" = some (r, pos') ∧
      latexToOmmlDirect latex = r := by
  intro latex
  have h := (parser_fuel_sufficient (3 * latex.data.length + 1) latex.data).1 0 ""
    (by omega)
  cases heq : parseF latex.data (3 * latex.data.length + 1) 0 "" with
  | none =>
    rw [heq] at h
    simp at h
  | some v =>
    obtain ⟨r, pos'⟩ := v
    refine ⟨r, pos', rfl, ?_⟩
    unfold latexToOmmlDirect
    dsimp only
    rw [heq]

end WordCopier
